import Mathlib

/-!
# asio-mini-host: channel classifier, routing planner, sample codec and driver session

A shallow embedding of `src/asio_host.cpp` / `src/asio_host.h`.

* `std::string` is a list of characters (`Name`), `int`/`long` are `Int`.
* Undefined behaviour and escaping exceptions (modulo by zero, `operator[]` past the
  end of a vector, `resize` with a negative count, a float-to-int conversion out of
  range) are results `Except.error f` with `f : Fault`.
* The foreign driver is a black box: every answer it gives is an argument of the
  operation that asks for it.
-/

namespace AsioHost

/-- Ways in which the C++ code leaves defined behaviour. -/
inductive Fault where
  /-- integer `%` with a zero divisor -/
  | divByZero
  /-- `std::vector::operator[]` at an index that is not below `size()` -/
  | outOfRange
  /-- `std::vector::resize` with a negative count (converted to a huge `size_t`) -/
  | lengthError
  /-- conversion of a floating value to an integer type that cannot hold it -/
  | floatToIntOverflow
  /-- access through a null or dangling buffer pointer, or past the end of the region -/
  | badPointer
  deriving DecidableEq, Repr

deriving instance DecidableEq for Except

/-- Contents of a `std::string`: one `Char` per byte. -/
abbrev Name := List Char

/-! ## Channel classifier -/

/-- `::tolower` in the "C" locale: only `A`..`Z` change. -/
def tolower (c : Char) : Char :=
  if 'A' ≤ c ∧ c ≤ 'Z' then Char.ofNat (c.toNat + 32) else c

/-- `isdigit` : decimal digits only. -/
def isdigit (c : Char) : Bool :=
  decide ('0' ≤ c ∧ c ≤ '9')

/-- `std::string::find(pattern)`: position of the first occurrence of `pat` in `s`,
`none` standing for `npos`. -/
def strFind (s pat : Name) : Option Nat :=
  match s with
  | [] => if pat.isPrefixOf [] then some 0 else none
  | c :: t => if pat.isPrefixOf (c :: t) then some 0 else (strFind t pat).map (· + 1)

/-- The table `hwPatterns` of `isHardwareChannelName`. -/
def hwPatterns : List Name :=
  [ "asio4all", "asio 4 all",
    "realtek", "nvidia", "amd", "intel",
    "usb", "hdmi", "spdif", "optical",
    "focusrite", "scarlett", "steinberg", "yamaha",
    "motu", "rme", "universal audio", "presonus",
    "behringer", "native instruments", "m-audio",
    "flexasio", "wasapi", "wdm",
    "speaker", "headphone", "line out", "line in",
    "microphone", "mic in", "aux",
    "topping", "fiio", "schiit", "jds", "geshelli",
    "not connected", "disconnected" ].map String.toList

/-- `ASIOHost::isHardwareChannelName`. -/
def isHardwareChannelName (name : Name) : Bool :=
  let lower := name.map tolower
  if hwPatterns.any (fun pattern => (strFind lower pattern).isSome) then
    true
  else if strFind lower "ch ".toList == some 0 || strFind lower "ch".toList == some 0 then
    true
  else
    let digitCount := name.countP (fun c => isdigit c || c == '-' || c == ' ')
    if name.length > 0 && digitCount ≥ name.length / 2 then
      true
    else
      false

/-- `ASIOHost::isVirtualEndpointName`. -/
def isVirtualEndpointName (name : Name) : Bool :=
  if isHardwareChannelName name then
    false
  else
    decide (name.length > 0)

/-! ## Routing planner -/

/-- `struct ChannelRoute`. -/
structure ChannelRoute where
  inputChannel : Int
  outputChannel : Int
  deriving DecidableEq, Repr

/-- The loop `for (int i = 0; i < n; i++) if (p(names[i])) out.push_back(i);`
run over the remaining indices `idxs`; subscripting past the end of `names` faults. -/
def scanNames (p : Name → Bool) (names : List Name) : List Nat → Except Fault (List Int)
  | [] => .ok []
  | i :: rest =>
    match names[i]? with
    | none => .error .outOfRange
    | some nm =>
      match scanNames p names rest with
      | .error f => .error f
      | .ok r => .ok (if p nm then Int.ofNat i :: r else r)

/-- The indices `0, 1, .., n-1` visited by `for (int i = 0; i < n; i++)`. -/
def upTo (n : Int) : List Nat := List.range n.toNat

/-- The final loop of `detectRouting`: `hwIdx = i % numHwChannels`, one route per
virtual input; `i` is the position of the next virtual input. -/
def pairRoutes (hardwareOutputs : List Int) : Nat → List Int → Except Fault (List ChannelRoute)
  | _, [] => .ok []
  | i, v :: rest =>
    if hardwareOutputs.length = 0 then .error .divByZero
    else
      match hardwareOutputs[i % hardwareOutputs.length]? with
      | none => .error .outOfRange
      | some h =>
        match pairRoutes hardwareOutputs (i + 1) rest with
        | .error f => .error f
        | .ok r => .ok (⟨v, h⟩ :: r)

/-- `ASIOHost::detectRouting`: the new value of `routes`, computed from the channel
counts and names of the session. -/
def detectRouting (numInputs numOutputs : Int) (inputChannelNames outputChannelNames : List Name) :
    Except Fault (List ChannelRoute) :=
  match scanNames isVirtualEndpointName inputChannelNames (upTo numInputs) with
  | .error f => .error f
  | .ok found =>
    let virtualInputs : List Int :=
      if found.isEmpty then (upTo numInputs).map Int.ofNat else found
    match scanNames isHardwareChannelName outputChannelNames (upTo numOutputs) with
    | .error f => .error f
    | .ok foundHw =>
      let hardwareOutputs : List Int :=
        if foundHw.isEmpty then (upTo (min numOutputs 2)).map Int.ofNat else foundHw
      pairRoutes hardwareOutputs 0 virtualInputs

/-! ## The routing plan in the words of the specification -/

/-- Selected index set in the words of the specification: the ascending indices whose
name satisfies `p`, or the first `fallback` indices when there is none. -/
def specSelect (p : Name → Bool) (names : List Name) (fallback : Nat) : List Nat :=
  let sel := (List.range names.length).filter (fun i => p (names.getD i []))
  if sel = [] then List.range fallback else sel

/-- Virtual-input set `V` of the specification. -/
def specVirtualInputs (ins : List Name) : List Nat :=
  specSelect isVirtualEndpointName ins ins.length

/-- Hardware-output set `H` of the specification. -/
def specHardwareOutputs (outs : List Name) : List Nat :=
  specSelect isHardwareChannelName outs (min 2 outs.length)

/-- Route list of the specification: `(V[i], H[i mod |H|])` for `i = 0 .. |V|-1`. -/
def specRoutes (ins outs : List Name) : List ChannelRoute :=
  let V := specVirtualInputs ins
  let H := specHardwareOutputs outs
  (List.range V.length).map
    (fun i => ⟨Int.ofNat (V.getD i 0), Int.ofNat (H.getD (i % H.length) 0)⟩)

/-! ## Floating-point values

`float` and `double` are IEEE-754 binary32 and binary64 with round-to-nearest-even.
A value is kept exactly, as a sign and a dyadic magnitude; NaN payloads are not tracked. -/

/-- A value of an IEEE-754 binary format: `fin neg m e` is `(-1)^neg * m * 2^e`. -/
inductive Fl where
  | nan
  | inf (neg : Bool)
  | fin (neg : Bool) (m : Nat) (e : Int)
  deriving DecidableEq, Repr

/-- Number of binary digits of `m`, counted by halving at most `fuel` times. -/
def bitLengthAux : Nat → Nat → Nat
  | 0, _ => 0
  | fuel + 1, m => if m = 0 then 0 else bitLengthAux fuel (m / 2) + 1

/-- Number of binary digits of `m` (`m` halvings always suffice). -/
def bitLength (m : Nat) : Nat := bitLengthAux m m

/-- Round `(-1)^neg * m * 2^e` to the nearest value with `p` significant bits, ties to
even, where `qmin` is the exponent of the smallest subnormal step and `emax` the largest
exponent; the result is in canonical form (full-width mantissa, or exponent `qmin`). -/
def roundFl (p : Nat) (qmin emax : Int) (neg : Bool) (m : Nat) (e : Int) : Fl :=
  if m = 0 then .fin neg 0 0
  else
    let q : Int := max (e + bitLength m - 1 - (p - 1)) qmin
    let m1 : Nat :=
      if q ≤ e then m * 2 ^ (e - q).toNat
      else
        let s := (q - e).toNat
        let lo := m % 2 ^ s
        let hi := m / 2 ^ s
        if lo * 2 > 2 ^ s ∨ (lo * 2 = 2 ^ s ∧ hi % 2 = 1) then hi + 1 else hi
    if m1 = 0 then .fin neg 0 0
    else if bitLength m1 > p then
      if q + 1 + (p - 1) > emax then .inf neg else .fin neg (m1 / 2) (q + 1)
    else if q + bitLength m1 - 1 > emax then .inf neg
    else .fin neg m1 q

/-- Rounding to `float`. -/
def round32 (neg : Bool) (m : Nat) (e : Int) : Fl := roundFl 24 (-149) 127 neg m e

/-- Rounding to `double`. -/
def round64 (neg : Bool) (m : Nat) (e : Int) : Fl := roundFl 53 (-1074) 1023 neg m e

/-- A decimal literal `n.0f` with integral value `n`. -/
def litF (n : Int) : Fl := round32 (decide (n < 0)) n.natAbs 0

/-- Conversion of an integer to `float`. -/
def intToFloat (n : Int) : Fl := round32 (decide (n < 0)) n.natAbs 0

/-- Conversion `(float)d` of a `double`. -/
def doubleToFloat : Fl → Fl
  | .fin neg m e => round32 neg m e
  | x => x

/-- The signed integer `k` with `x = k * 2^e` for a finite `x = fin neg m e1`, `e ≤ e1`. -/
def scaled (neg : Bool) (m : Nat) (e1 e : Int) : Int :=
  let a : Int := m * 2 ^ (e1 - e).toNat
  if neg then -a else a

/-- `a < b` on floating values (false when either is NaN). -/
def fltLt : Fl → Fl → Bool
  | .nan, _ => false
  | _, .nan => false
  | .inf a, .inf b => a && !b
  | .inf a, .fin _ _ _ => a
  | .fin _ _ _, .inf b => !b
  | .fin n1 m1 e1, .fin n2 m2 e2 =>
    decide (scaled n1 m1 e1 (min e1 e2) < scaled n2 m2 e2 (min e1 e2))

/-- `a * b` in `float`. -/
def fmul : Fl → Fl → Fl
  | .nan, _ => .nan
  | _, .nan => .nan
  | .inf a, .inf b => .inf (xor a b)
  | .inf a, .fin b m _ => if m = 0 then .nan else .inf (xor a b)
  | .fin a m _, .inf b => if m = 0 then .nan else .inf (xor a b)
  | .fin n1 m1 e1, .fin n2 m2 e2 => round32 (xor n1 n2) (m1 * m2) (e1 + e2)

/-- `a + b` in `float`. -/
def fadd : Fl → Fl → Fl
  | .nan, _ => .nan
  | _, .nan => .nan
  | .inf a, .inf b => if a = b then .inf a else .nan
  | .inf a, .fin _ _ _ => .inf a
  | .fin _ _ _, .inf b => .inf b
  | .fin n1 m1 e1, .fin n2 m2 e2 =>
    let e := min e1 e2
    let sum := scaled n1 m1 e1 e + scaled n2 m2 e2 e
    if sum = 0 then .fin (n1 && n2) 0 0 else round32 (decide (sum < 0)) sum.natAbs e

/-- `x / c` in `float` for a divisor `c = 2^k`; the three divisors of `sampleToFloat`,
`32768.0f`, `8388608.0f` and `2147483648.0f`, are the powers `2^15`, `2^23`, `2^31`. -/
def fdivPow2 (x : Fl) (k : Nat) : Fl :=
  match x with
  | .fin neg m e => round32 neg m (e - k)
  | y => y

/-- Conversion of a floating value to a signed integer type of `bits` bits: truncation
toward zero, undefined when the truncated value is not representable. -/
def floatToInt (bits : Nat) : Fl → Except Fault Int
  | .fin neg m e =>
    let a : Int := if 0 ≤ e then m * 2 ^ e.toNat else m / 2 ^ (-e).toNat
    let v : Int := if neg then -a else a
    if -(2 : Int) ^ (bits - 1) ≤ v ∧ v ≤ (2 : Int) ^ (bits - 1) - 1 then .ok v
    else .error .floatToIntOverflow
  | _ => .error .floatToIntOverflow

/-- `std::min(a, b)`, that is `(b < a) ? b : a`. -/
def stdMin (a b : Fl) : Fl := if fltLt b a then b else a

/-- `std::max(a, b)`, that is `(a < b) ? b : a`. -/
def stdMax (a b : Fl) : Fl := if fltLt a b then b else a

/-- Value of the bit pattern `b` in the binary format with `frac` fraction bits and
`ebits` exponent bits. -/
def decodeBits (frac ebits : Nat) (b : Nat) : Fl :=
  let neg := decide ((b / 2 ^ (frac + ebits)) % 2 = 1)
  let ex := (b / 2 ^ frac) % 2 ^ ebits
  let fr := b % 2 ^ frac
  let bias : Int := 2 ^ (ebits - 1) - 1
  if ex = 2 ^ ebits - 1 then (if fr = 0 then .inf neg else .nan)
  else if ex = 0 then (if fr = 0 then .fin neg 0 0 else .fin neg fr (1 - bias - frac))
  else .fin neg (2 ^ frac + fr) (ex - bias - frac)

/-- Bit pattern of a value that is representable in the binary format with `frac`
fraction bits and `ebits` exponent bits (the value is brought to canonical form first). -/
def encodeBits (frac ebits : Nat) (x : Fl) : Nat :=
  let bias : Int := 2 ^ (ebits - 1) - 1
  let signBit (neg : Bool) : Nat := if neg then 2 ^ (frac + ebits) else 0
  let canon : Fl :=
    match x with
    | .fin neg m e => roundFl (frac + 1) (1 - bias - frac) bias neg m e
    | y => y
  match canon with
  | .nan => (2 ^ ebits - 1) * 2 ^ frac + 2 ^ (frac - 1)
  | .inf neg => signBit neg + (2 ^ ebits - 1) * 2 ^ frac
  | .fin neg m e =>
    if bitLength m = frac + 1 then signBit neg + (e + bias + frac).toNat * 2 ^ frac + (m - 2 ^ frac)
    else signBit neg + m

/-! ## Sample codec -/

/-- `enum ASIOSampleType`; the driver reports it as a number, which may be none of the
named values. -/
abbrev ASIOSampleType := Int

@[reducible] def ASIOSTInt16MSB : ASIOSampleType := 0
@[reducible] def ASIOSTInt24MSB : ASIOSampleType := 1
@[reducible] def ASIOSTInt32MSB : ASIOSampleType := 2
@[reducible] def ASIOSTFloat32MSB : ASIOSampleType := 3
@[reducible] def ASIOSTFloat64MSB : ASIOSampleType := 4
@[reducible] def ASIOSTInt32MSB16 : ASIOSampleType := 8
@[reducible] def ASIOSTInt32MSB18 : ASIOSampleType := 9
@[reducible] def ASIOSTInt32MSB20 : ASIOSampleType := 10
@[reducible] def ASIOSTInt32MSB24 : ASIOSampleType := 11
@[reducible] def ASIOSTInt16LSB : ASIOSampleType := 16
@[reducible] def ASIOSTInt24LSB : ASIOSampleType := 17
@[reducible] def ASIOSTInt32LSB : ASIOSampleType := 18
@[reducible] def ASIOSTFloat32LSB : ASIOSampleType := 19
@[reducible] def ASIOSTFloat64LSB : ASIOSampleType := 20
@[reducible] def ASIOSTInt32LSB16 : ASIOSampleType := 24
@[reducible] def ASIOSTInt32LSB18 : ASIOSampleType := 25
@[reducible] def ASIOSTInt32LSB20 : ASIOSampleType := 26
@[reducible] def ASIOSTInt32LSB24 : ASIOSampleType := 27

/-- `ASIOHost::getBytesPerSample`. -/
def getBytesPerSample (type : ASIOSampleType) : Int :=
  if type = ASIOSTInt16MSB ∨ type = ASIOSTInt16LSB then 2
  else if type = ASIOSTInt24MSB ∨ type = ASIOSTInt24LSB then 3
  else if type = ASIOSTInt32MSB ∨ type = ASIOSTInt32LSB
      ∨ type = ASIOSTInt32MSB16 ∨ type = ASIOSTInt32MSB18
      ∨ type = ASIOSTInt32MSB20 ∨ type = ASIOSTInt32MSB24
      ∨ type = ASIOSTInt32LSB16 ∨ type = ASIOSTInt32LSB18
      ∨ type = ASIOSTInt32LSB20 ∨ type = ASIOSTInt32LSB24
      ∨ type = ASIOSTFloat32MSB ∨ type = ASIOSTFloat32LSB then 4
  else if type = ASIOSTFloat64MSB ∨ type = ASIOSTFloat64LSB then 8
  else 4

/-- A region of driver memory: its bytes, each below 256. -/
abbrev Region := List Nat

/-- The `n` bytes at byte offset `off` of a region; reading outside it is a fault. -/
def readBytes (buffer : Region) (off : Int) (n : Nat) : Except Fault (List Nat) :=
  if 0 ≤ off ∧ off + n ≤ buffer.length then .ok ((buffer.drop off.toNat).take n)
  else .error .badPointer

/-- The region with the bytes `bs` stored at byte offset `off`; writing outside it is a
fault. -/
def writeBytes (buffer : Region) (off : Int) (bs : List Nat) : Except Fault Region :=
  if 0 ≤ off ∧ off + bs.length ≤ buffer.length then
    .ok (buffer.take off.toNat ++ bs ++ buffer.drop (off.toNat + bs.length))
  else .error .badPointer

/-- Unsigned value of little-endian bytes. -/
def leValue (bs : List Nat) : Nat := bs.foldr (fun b acc => b + 256 * acc) 0

/-- The `w` little-endian bytes of the two's-complement representation of `v`. -/
def leBytes (w : Nat) (v : Int) : List Nat :=
  (List.range w).map (fun i => ((v / 256 ^ i) % 256).toNat)

/-- Two's-complement value of the `w`-bit pattern `u`. -/
def toSigned (w : Nat) (u : Nat) : Int :=
  if u % 2 ^ w < 2 ^ (w - 1) then ((u % 2 ^ w : Nat) : Int) else ((u % 2 ^ w : Nat) : Int) - 2 ^ w

/-- The 24-bit read of `sampleToFloat`:
`val = buf[0] | buf[1] << 8 | buf[2] << 16; if (val & 0x800000) val |= 0xFF000000;`. -/
def load24 (b0 b1 b2 : Nat) : Int :=
  let val : Nat := b0 ||| (b1 <<< 8) ||| (b2 <<< 16)
  if val &&& 0x800000 ≠ 0 then toSigned 32 (val ||| 0xFF000000) else (val : Int)

/-- The 24-bit store of `floatToSample`: `val & 0xFF`, `(val >> 8) & 0xFF`,
`(val >> 16) & 0xFF` on the two's-complement `val` (`>>` is the floor division by a
power of two, `& 0xFF` the remainder modulo 256). -/
def store24 (val : Int) : List Nat :=
  [(val % 256).toNat, ((val / 2 ^ 8) % 256).toNat, ((val / 2 ^ 16) % 256).toNat]

/-- `ASIOHost::sampleToFloat`. -/
def sampleToFloat (buffer : Region) (sampleIndex : Int) (type : ASIOSampleType) :
    Except Fault Fl :=
  if type = ASIOSTInt32LSB then
    (readBytes buffer (sampleIndex * 4) 4).map
      (fun bs => fdivPow2 (intToFloat (toSigned 32 (leValue bs))) 31)
  else if type = ASIOSTInt16LSB then
    (readBytes buffer (sampleIndex * 2) 2).map
      (fun bs => fdivPow2 (intToFloat (toSigned 16 (leValue bs))) 15)
  else if type = ASIOSTInt24LSB then
    (readBytes buffer (sampleIndex * 3) 3).map
      (fun bs => fdivPow2 (intToFloat (load24 (bs.getD 0 0) (bs.getD 1 0) (bs.getD 2 0))) 23)
  else if type = ASIOSTFloat32LSB then
    (readBytes buffer (sampleIndex * 4) 4).map (fun bs => decodeBits 23 8 (leValue bs))
  else if type = ASIOSTFloat64LSB then
    (readBytes buffer (sampleIndex * 8) 8).map
      (fun bs => doubleToFloat (decodeBits 52 11 (leValue bs)))
  else
    (readBytes buffer (sampleIndex * 4) 4).map
      (fun bs => fdivPow2 (intToFloat (toSigned 32 (leValue bs))) 31)

/-- `ASIOHost::floatToSample`: the region after the store. -/
def floatToSample (value : Fl) (buffer : Region) (sampleIndex : Int) (type : ASIOSampleType) :
    Except Fault Region :=
  let value := stdMax (litF (-1)) (stdMin (litF 1) value)
  if type = ASIOSTInt32LSB then
    (floatToInt 32 (fmul value (litF 2147483647))).bind
      (fun v => writeBytes buffer (sampleIndex * 4) (leBytes 4 v))
  else if type = ASIOSTInt16LSB then
    (floatToInt 16 (fmul value (litF 32767))).bind
      (fun v => writeBytes buffer (sampleIndex * 2) (leBytes 2 v))
  else if type = ASIOSTInt24LSB then
    (floatToInt 32 (fmul value (litF 8388607))).bind
      (fun val => writeBytes buffer (sampleIndex * 3) (store24 val))
  else if type = ASIOSTFloat32LSB then
    writeBytes buffer (sampleIndex * 4) (leBytes 4 (encodeBits 23 8 value))
  else if type = ASIOSTFloat64LSB then
    writeBytes buffer (sampleIndex * 8) (leBytes 8 (encodeBits 52 11 value))
  else
    (floatToInt 32 (fmul value (litF 2147483647))).bind
      (fun v => writeBytes buffer (sampleIndex * 4) (leBytes 4 v))

/-! ## Driver session -/

/-- A `void*` handed out by the driver: `none` is `nullptr`, `some a` points to the start
of region `a` of driver memory. -/
abbrev Ptr := Option Nat

/-- Driver memory: the regions the driver allocated, by number. -/
abbrev Mem := List Region

/-- `struct DriverInfo`: a registry entry, the class identifier kept as a number. -/
structure DriverInfo where
  name : Name
  clsid : Nat
  deriving DecidableEq, Repr

/-- The data members of `class ASIOHost`, with the initial values of the header;
`inputBuffers[2]` and `outputBuffers[2]` are the fields ending in `0` and `1`. -/
structure ASIOHost where
  asioDriver : Option Nat := none
  driverName : Name := []
  numInputs : Int := 0
  numOutputs : Int := 0
  sampleRate : Fl := round64 false 44100 0
  bufferSize : Int := 512
  initialized : Bool := false
  buffersCreated : Bool := false
  running : Bool := false
  inputChannelNames : List Name := []
  outputChannelNames : List Name := []
  inputSampleTypes : List ASIOSampleType := []
  outputSampleTypes : List ASIOSampleType := []
  routes : List ChannelRoute := []
  mixBuffer : List Fl := []
  inputBuffers0 : List Ptr := []
  inputBuffers1 : List Ptr := []
  outputBuffers0 : List Ptr := []
  outputBuffers1 : List Ptr := []
  deriving DecidableEq, Repr

/-- `inputBuffers[index]`; the array has two elements. -/
def ASIOHost.inputBuffers (s : ASIOHost) (index : Int) : Except Fault (List Ptr) :=
  if index = 0 then .ok s.inputBuffers0
  else if index = 1 then .ok s.inputBuffers1
  else .error .outOfRange

/-- `outputBuffers[index]`; the array has two elements. -/
def ASIOHost.outputBuffers (s : ASIOHost) (index : Int) : Except Fault (List Ptr) :=
  if index = 0 then .ok s.outputBuffers0
  else if index = 1 then .ok s.outputBuffers1
  else .error .outOfRange

/-- `std::vector::resize(n)` with an `int` argument: a negative `n` becomes a huge
`size_t` and the call throws; new elements are value-initialised to `dflt`. -/
def resizeVec {α : Type} (dflt : α) (n : Int) (v : List α) : Except Fault (List α) :=
  if n < 0 then .error .lengthError
  else .ok (v.take n.toNat ++ List.replicate (n.toNat - v.length) dflt)

/-- `v[i]` on a vector subscripted by an `int`. -/
def vecGet {α : Type} (v : List α) (i : Int) : Except Fault α :=
  if i < 0 then .error .outOfRange
  else
    match v[i.toNat]? with
    | none => .error .outOfRange
    | some x => .ok x

/-- `ASIOHost::unloadDriver`. -/
def unloadDriver (s : ASIOHost) : ASIOHost :=
  { s with
    asioDriver := none
    driverName := []
    initialized := false
    inputChannelNames := []
    outputChannelNames := []
    inputSampleTypes := []
    outputSampleTypes := []
    routes := [] }

/-- `ASIOHost::loadDriver`. `drivers` is the answer of `getDriverList()` (the registry)
and `instantiate clsid` the interface pointer `CoCreateInstance` stores, `none` when it
fails (it then stores a null pointer). -/
def loadDriver (s : ASIOHost) (name : Name) (drivers : List DriverInfo)
    (instantiate : Nat → Option Nat) : Bool × ASIOHost :=
  let s := unloadDriver s
  match drivers.find? (fun driver => driver.name == name) with
  | none => (false, s)
  | some driver =>
    match instantiate driver.clsid with
    | none => (false, { s with asioDriver := none })
    | some handle => (true, { s with asioDriver := some handle, driverName := name })

/-- What the driver answers during `initialize`. -/
structure InitReply where
  /-- result of `init(hwnd)` -/
  initResult : Int
  /-- `getChannels`: the two counts when it returns `ASE_OK` -/
  channels : Option (Int × Int)
  /-- `getSampleRate`: the rate it stores, if it stores one -/
  sampleRate : Option Fl
  /-- `getChannelInfo` for `(isInput, channel)`: name and type when it returns `ASE_OK` -/
  channelInfo : Bool → Nat → Option (Name × ASIOSampleType)

/-- One of the two loops of `initialize` that fill the name and type vectors, run over
the remaining indices; `stem` is "Input " or "Output ". -/
def fillChannels (info : Nat → Option (Name × ASIOSampleType)) (stem : String) :
    List Nat → List Name × List ASIOSampleType → List Name × List ASIOSampleType
  | [], acc => acc
  | i :: rest, (names, types) =>
    match info i with
    | some (nm, ty) => fillChannels info stem rest (names.set i nm, types.set i ty)
    | none =>
      fillChannels info stem rest
        (names.set i (stem ++ toString (i + 1)).toList, types.set i ASIOSTInt32LSB)

/-- `ASIOHost::initialize` (the word is reserved in Lean, hence the longer name). -/
def initializeDriver (s : ASIOHost) (r : InitReply) : Except Fault (Bool × ASIOHost) :=
  if s.asioDriver.isNone then .ok (false, s)
  else if r.initResult ≠ 1 then .ok (false, s)
  else
    match r.channels with
    | none => .ok (false, s)
    | some (inputs, outputs) =>
      let s := { s with numInputs := inputs, numOutputs := outputs }
      let s := { s with sampleRate := r.sampleRate.getD s.sampleRate }
      (resizeVec [] s.numInputs s.inputChannelNames).bind fun inNames =>
      (resizeVec [] s.numOutputs s.outputChannelNames).bind fun outNames =>
      (resizeVec ASIOSTInt16MSB s.numInputs s.inputSampleTypes).bind fun inTypes =>
      (resizeVec ASIOSTInt16MSB s.numOutputs s.outputSampleTypes).bind fun outTypes =>
      let ins := fillChannels (r.channelInfo true) "Input " (upTo s.numInputs) (inNames, inTypes)
      let outs :=
        fillChannels (r.channelInfo false) "Output " (upTo s.numOutputs) (outNames, outTypes)
      .ok (true,
        { s with
          inputChannelNames := ins.1
          inputSampleTypes := ins.2
          outputChannelNames := outs.1
          outputSampleTypes := outs.2
          initialized := true })

/-- What the driver answers during `createBuffers`. -/
structure BufReply where
  /-- `getBufferSize`: `(minSize, maxSize, preferred, granularity)` when it returns `ASE_OK` -/
  bufferSize : Option (Int × Int × Int × Int)
  /-- `createBuffers`: when it returns `ASE_OK`, the pointers `(buffers[0], buffers[1])`
  it left in `bufferInfos[idx]` -/
  created : Option (Nat → Ptr × Ptr)

/-- The buffer size `createBuffers` settles on:
`bufferSize = (preferredSize > 0) ? preferredSize : preferred;` then the two clamping
statements. -/
def chooseBufferSize (preferredSize minSize maxSize preferred : Int) : Int :=
  let b0 := if preferredSize > 0 then preferredSize else preferred
  let b1 := if b0 < minSize then minSize else b0
  if b1 > maxSize then maxSize else b1

/-- `ASIOHost::createBuffers`. The four `resize` calls on the pointer vectors and the two
loops that copy `bufferInfos[idx].buffers` into them are written as the vectors they
produce. -/
def createBuffers (s : ASIOHost) (preferredSize : Int) (r : BufReply) :
    Except Fault (Bool × ASIOHost) :=
  if !s.initialized || s.asioDriver.isNone then .ok (false, s)
  else
    match r.bufferSize with
    | none => .ok (false, s)
    | some (minSize, maxSize, preferred, _) =>
      let s := { s with bufferSize := chooseBufferSize preferredSize minSize maxSize preferred }
      (resizeVec (Fl.fin false 0 0) s.bufferSize s.mixBuffer).bind fun mix =>
      let s := { s with mixBuffer := mix }
      let totalChannels := s.numInputs + s.numOutputs
      if totalChannels < 0 then .error .lengthError
      else if totalChannels.toNat < s.numInputs.toNat + s.numOutputs.toNat then
        .error .outOfRange
      else
        match r.created with
        | none => .ok (false, s)
        | some bufs =>
          (resizeVec none s.numInputs s.inputBuffers0).bind fun _ =>
          (resizeVec none s.numInputs s.inputBuffers1).bind fun _ =>
          (resizeVec none s.numOutputs s.outputBuffers0).bind fun _ =>
          (resizeVec none s.numOutputs s.outputBuffers1).bind fun _ =>
          let s :=
            { s with
              inputBuffers0 := (upTo s.numInputs).map (fun i => (bufs i).1)
              inputBuffers1 := (upTo s.numInputs).map (fun i => (bufs i).2)
              outputBuffers0 := (upTo s.numOutputs).map (fun i => (bufs (s.numInputs.toNat + i)).1)
              outputBuffers1 := (upTo s.numOutputs).map (fun i => (bufs (s.numInputs.toNat + i)).2) }
          (detectRouting s.numInputs s.numOutputs s.inputChannelNames s.outputChannelNames).bind
            fun routes => .ok (true, { s with routes := routes, buffersCreated := true })

/-- `ASIOHost::disposeBuffers`. -/
def disposeBuffers (s : ASIOHost) : ASIOHost :=
  let s := if s.buffersCreated && s.asioDriver.isSome then { s with buffersCreated := false } else s
  { s with
    inputBuffers0 := []
    inputBuffers1 := []
    outputBuffers0 := []
    outputBuffers1 := []
    mixBuffer := []
    routes := [] }

/-- `ASIOHost::start`; `startOk` tells whether the driver's `start()` returns `ASE_OK`. -/
def start (s : ASIOHost) (startOk : Bool) : Bool × ASIOHost :=
  if !s.buffersCreated || s.asioDriver.isNone then (false, s)
  else if !startOk then (false, s)
  else (true, { s with running := true })

/-- `ASIOHost::stop`. -/
def stop (s : ASIOHost) : Bool × ASIOHost :=
  if !s.running || s.asioDriver.isNone then (false, s)
  else (true, { s with running := false })

/-- `ASIOHost::isRunning`. -/
def isRunning (s : ASIOHost) : Bool := s.running

/-! ## Real-time callback -/

/-- Calls made into the driver by the callback. -/
inductive DriverCall where
  | outputReady
  deriving DecidableEq, Repr

/-- The region a buffer pointer points to; a null pointer or one that names no region
of driver memory cannot be dereferenced. -/
def regionOf (mem : Mem) (p : Ptr) : Except Fault Region :=
  match p with
  | none => .error .badPointer
  | some a =>
    match mem[a]? with
    | none => .error .badPointer
    | some region => .ok region

/-- `memset(p, 0, bytes)` with an `int` byte count (a negative count becomes a huge
`size_t`): the first `bytes` bytes of the region become zero. -/
def memsetZero (mem : Mem) (p : Ptr) (bytes : Int) : Except Fault Mem :=
  match p with
  | none => .error .badPointer
  | some a =>
    match mem[a]? with
    | none => .error .badPointer
    | some region =>
      if bytes < 0 ∨ (region.length : Int) < bytes then .error .badPointer
      else .ok (mem.set a (List.replicate bytes.toNat 0 ++ region.drop bytes.toNat))

/-- The first loop of `bufferSwitch`, run over the remaining channels:
`memset(outputBuffers[index][ch], 0, getBytesPerSample(outputSampleTypes[ch]) * bufferSize)`. -/
def clearOutputs (s : ASIOHost) (index : Int) : List Nat → Mem → Except Fault Mem
  | [], mem => .ok mem
  | ch :: rest, mem =>
    (vecGet s.outputSampleTypes ch).bind fun ty =>
    (s.outputBuffers index).bind fun bufs =>
    (vecGet bufs ch).bind fun p =>
    (memsetZero mem p (getBytesPerSample ty * s.bufferSize)).bind fun mem1 =>
    clearOutputs s index rest mem1

/-- The frame loop of one route, run over the remaining frames: decode the input sample
and the output sample, store their sum in the output buffer. -/
def mixFrames (inBuf outBuf : Ptr) (inType outType : ASIOSampleType) :
    List Nat → Mem → Except Fault Mem
  | [], mem => .ok mem
  | i :: rest, mem =>
    (regionOf mem inBuf).bind fun inRegion =>
    (sampleToFloat inRegion i inType).bind fun inSample =>
    (regionOf mem outBuf).bind fun outRegion =>
    (sampleToFloat outRegion i outType).bind fun outSample =>
    (floatToSample (fadd inSample outSample) outRegion i outType).bind fun outRegion1 =>
    mixFrames inBuf outBuf inType outType rest (mem.set (outBuf.getD 0) outRegion1)

/-- The route loop of `bufferSwitch`, run over the remaining routes. -/
def processRoutes (s : ASIOHost) (index : Int) : List ChannelRoute → Mem → Except Fault Mem
  | [], mem => .ok mem
  | route :: rest, mem =>
    let inCh := route.inputChannel
    let outCh := route.outputChannel
    if inCh ≥ s.numInputs ∨ outCh ≥ s.numOutputs then processRoutes s index rest mem
    else
      (vecGet s.inputSampleTypes inCh).bind fun inType =>
      (vecGet s.outputSampleTypes outCh).bind fun outType =>
      (s.inputBuffers index).bind fun inBufs =>
      (vecGet inBufs inCh).bind fun inBuf =>
      (s.outputBuffers index).bind fun outBufs =>
      (vecGet outBufs outCh).bind fun outBuf =>
      (mixFrames inBuf outBuf inType outType (upTo s.bufferSize) mem).bind fun mem1 =>
      processRoutes s index rest mem1

/-- `ASIOHost::bufferSwitch` on driver memory `mem`: the memory afterwards and the calls
made into the driver. -/
def bufferSwitch (s : ASIOHost) (mem : Mem) (index : Int) :
    Except Fault (Mem × List DriverCall) :=
  if !s.running then .ok (mem, [])
  else
    (clearOutputs s index (upTo s.numOutputs) mem).bind fun mem1 =>
    (processRoutes s index s.routes mem1).bind fun mem2 =>
    .ok (mem2, if s.asioDriver.isSome then [DriverCall.outputReady] else [])

/-! ## Reachable session states -/

/-- A call of one public operation, together with everything the outside world (the
registry, the driver) answers during the call. -/
inductive Op where
  | loadDriver (name : Name) (drivers : List DriverInfo) (instantiate : Nat → Option Nat)
  | initializeDriver (r : InitReply)
  | createBuffers (preferredSize : Int) (r : BufReply)
  | start (startOk : Bool)
  | stop
  | disposeBuffers
  | unloadDriver

/-- The session after one operation, when the operation completes. -/
def step (s : ASIOHost) : Op → Except Fault ASIOHost
  | .loadDriver name drivers instantiate => .ok (loadDriver s name drivers instantiate).2
  | .initializeDriver r => (initializeDriver s r).map Prod.snd
  | .createBuffers preferredSize r => (createBuffers s preferredSize r).map Prod.snd
  | .start startOk => .ok (start s startOk).2
  | .stop => .ok (stop s).2
  | .disposeBuffers => .ok (disposeBuffers s)
  | .unloadDriver => .ok (unloadDriver s)

/-- The states a freshly constructed `ASIOHost` can be brought to by a sequence of
public operations, each of which completes. -/
inductive Reachable : ASIOHost → Prop where
  | fresh : Reachable {}
  | next {s s1 : ASIOHost} (op : Op) : Reachable s → step s op = .ok s1 → Reachable s1

/-- The states reached by sequences of public operations in which `initialize` is only
called while the route table is empty. -/
inductive ReachableInitFirst : ASIOHost → Prop where
  | fresh : ReachableInitFirst {}
  | next {s s1 : ASIOHost} (op : Op) : ReachableInitFirst s →
      (∀ r, op = Op.initializeDriver r → s.routes = []) → step s op = .ok s1 →
      ReachableInitFirst s1

/-- Both endpoints of every route are within the current channel counts. -/
def RoutesInBounds (s : ASIOHost) : Prop :=
  ∀ r ∈ s.routes,
    0 ≤ r.inputChannel ∧ r.inputChannel < s.numInputs
    ∧ 0 ≤ r.outputChannel ∧ r.outputChannel < s.numOutputs

/-- The session after a sequence of operations, when all of them complete. -/
def run (s : ASIOHost) : List Op → Except Fault ASIOHost
  | [] => .ok s
  | op :: rest => (step s op).bind fun s1 => run s1 rest

/-! ## A sample driver

Answers of a well-behaved driver "drv" whose inputs are all called "Music" and whose
outputs are all called "Speaker", used to exhibit concrete runs. -/

/-- Loading the sample driver: it is registered and instantiation succeeds. -/
def sampleLoad : Op :=
  .loadDriver "drv".toList [⟨"drv".toList, 7⟩] (fun _ => some 1)

/-- The sample driver initialises and reports `ins` inputs and `outs` outputs of format
`ty`. -/
def sampleInit (ins outs : Int) (ty : ASIOSampleType) : Op :=
  .initializeDriver
    { initResult := 1
      channels := some (ins, outs)
      sampleRate := some (round64 false 48000 0)
      channelInfo := fun isInput _ =>
        some (if isInput then "Music".toList else "Speaker".toList, ty) }

/-- The sample driver accepts buffer creation with sizes between 4 and 1024 frames,
8 preferred, and hands out region `2 * idx` and `2 * idx + 1` for the two halves of
channel entry `idx`. -/
def sampleCreate : Op :=
  .createBuffers 0
    { bufferSize := some (4, 1024, 8, 1)
      created := some (fun idx => (some (2 * idx), some (2 * idx + 1))) }

/-- The sample session after load, initialize and create-buffers. -/
def sampleSession (ins outs : Int) (ty : ASIOSampleType) : ASIOHost :=
  match run {} [sampleLoad, sampleInit ins outs ty, sampleCreate] with
  | .ok s => s
  | .error _ => {}

/-- Byte `k` of region `a` of driver memory, if there is one. -/
def byteAt (mem : Mem) (a k : Nat) : Option Nat := (mem[a]?).bind (fun region => region[k]?)

/-- The driver's side of a running session, for buffer half `index`: the period length
is not negative, and every output channel has a sample type and a buffer pointer to a
region of driver memory that holds a full period in the channel's format. -/
def OutputsReady (s : ASIOHost) (mem : Mem) (index : Int) : Prop :=
  0 ≤ s.bufferSize
  ∧ ∀ bufs, s.outputBuffers index = .ok bufs →
      ∀ ch ∈ upTo s.numOutputs, ∃ ty a region,
        s.outputSampleTypes[ch]? = some ty ∧ bufs[ch]? = some (some a)
        ∧ mem[a]? = some region
        ∧ getBytesPerSample ty * s.bufferSize ≤ region.length

/-- The sample session with no input and two 16-bit outputs, started: its route table is
empty. -/
def sampleRunning : ASIOHost := (start (sampleSession 0 2 ASIOSTInt16LSB) true).2

/-- Driver memory for `sampleRunning`: four regions of a full period (8 frames of two
bytes), filled with the byte 7. -/
def sampleMem : Mem := List.replicate 4 (List.replicate 16 7)

/-! ## The codec as bytes stored and bytes read

`floatToSample` and `sampleToFloat` access one sample of `sampleWidth type` bytes at byte
offset `sampleIndex * sampleWidth type`; `encodeSample` gives the bytes stored and
`decodeSample` the value of the bytes read (see `floatToSample_eq_encode` and
`sampleToFloat_eq_decode`). -/

/-- Number of bytes per frame that the codec accesses for a format: the element size of
the pointer type each `case` of `sampleToFloat` / `floatToSample` casts the buffer to. -/
def sampleWidth (type : ASIOSampleType) : Nat :=
  if type = ASIOSTInt32LSB then 4
  else if type = ASIOSTInt16LSB then 2
  else if type = ASIOSTInt24LSB then 3
  else if type = ASIOSTFloat32LSB then 4
  else if type = ASIOSTFloat64LSB then 8
  else 4

/-- The bytes `floatToSample` stores for `value`. -/
def encodeSample (value : Fl) (type : ASIOSampleType) : Except Fault (List Nat) :=
  let value := stdMax (litF (-1)) (stdMin (litF 1) value)
  if type = ASIOSTInt32LSB then
    (floatToInt 32 (fmul value (litF 2147483647))).map (leBytes 4)
  else if type = ASIOSTInt16LSB then
    (floatToInt 16 (fmul value (litF 32767))).map (leBytes 2)
  else if type = ASIOSTInt24LSB then
    (floatToInt 32 (fmul value (litF 8388607))).map store24
  else if type = ASIOSTFloat32LSB then .ok (leBytes 4 (encodeBits 23 8 value))
  else if type = ASIOSTFloat64LSB then .ok (leBytes 8 (encodeBits 52 11 value))
  else (floatToInt 32 (fmul value (litF 2147483647))).map (leBytes 4)

/-- The value `sampleToFloat` returns for the bytes `bs` of one sample. -/
def decodeSample (bs : List Nat) (type : ASIOSampleType) : Fl :=
  if type = ASIOSTInt32LSB then fdivPow2 (intToFloat (toSigned 32 (leValue bs))) 31
  else if type = ASIOSTInt16LSB then fdivPow2 (intToFloat (toSigned 16 (leValue bs))) 15
  else if type = ASIOSTInt24LSB then
    fdivPow2 (intToFloat (load24 (bs.getD 0 0) (bs.getD 1 0) (bs.getD 2 0))) 23
  else if type = ASIOSTFloat32LSB then decodeBits 23 8 (leValue bs)
  else if type = ASIOSTFloat64LSB then doubleToFloat (decodeBits 52 11 (leValue bs))
  else fdivPow2 (intToFloat (toSigned 32 (leValue bs))) 31

/-- `floatToSample(x, ..)` followed by `sampleToFloat` on the same buffer, frame index and
format. -/
def roundTrip (x : Fl) (buffer : Region) (sampleIndex : Int) (type : ASIOSampleType) :
    Except Fault Fl :=
  (floatToSample x buffer sampleIndex type).bind
    (fun stored => sampleToFloat stored sampleIndex type)

/-- `|x - y| ≤ 2^(-k)` for `step = some k`, and `x = y` for `step = none`. -/
def withinStep (x y : Fl) (step : Option Nat) : Bool :=
  match step, x, y with
  | none, _, _ => decide (x = y)
  | some k, .fin n1 m1 e1, .fin n2 m2 e2 =>
    let e := min (min e1 e2) (-(k : Int))
    decide ((scaled n1 m1 e1 e - scaled n2 m2 e2 e).natAbs ≤ 2 ^ (-(k : Int) - e).toNat)
  | some _, _, _ => false

/-- The quantization step of a supported format: `2^-15`, `2^-23`, `2^-31` for the
integer formats, none (exact) for the float formats. -/
def quantStep (type : ASIOSampleType) : Option Nat :=
  if type = ASIOSTInt16LSB then some 15
  else if type = ASIOSTInt24LSB then some 23
  else if type = ASIOSTInt32LSB then some 31
  else none

/-- The test values `-1.0, -0.5, 0.0, 0.5, 1.0`. -/
def testValues : List Fl :=
  [litF (-1), fdivPow2 (litF (-1)) 1, litF 0, fdivPow2 (litF 1) 1, litF 1]

/-- The five supported formats. -/
def supportedTypes : List ASIOSampleType :=
  [ASIOSTInt16LSB, ASIOSTInt24LSB, ASIOSTInt32LSB, ASIOSTFloat32LSB, ASIOSTFloat64LSB]

/-- Whether the bytes stored for `x` are a full sample that decodes to within one
quantization step of `x`. -/
def roundTripCheck (x : Fl) (type : ASIOSampleType) : Bool :=
  match encodeSample x type with
  | .ok bs => bs.length == sampleWidth type && withinStep x (decodeSample bs type) (quantStep type)
  | .error _ => false

/-! ## Driver messages -/

@[reducible] def kAsioSelectorSupported : Int := 1
@[reducible] def kAsioEngineVersion : Int := 2
@[reducible] def kAsioResetRequest : Int := 3
@[reducible] def kAsioBufferSizeChange : Int := 4
@[reducible] def kAsioResyncRequest : Int := 5
@[reducible] def kAsioLatenciesChanged : Int := 6
@[reducible] def kAsioSupportsTimeInfo : Int := 7
@[reducible] def kAsioSupportsTimeCode : Int := 8
@[reducible] def kAsioSupportsInputMonitor : Int := 9

/-- `ASIOHost::asioMessageCallback`; the pointers `message` and `opt` are not looked at. -/
def asioMessageCallback (selector value : Int) (_message _opt : Ptr) : Int :=
  if selector = kAsioSelectorSupported then
    if value = kAsioResetRequest ∨ value = kAsioEngineVersion ∨ value = kAsioResyncRequest
        ∨ value = kAsioLatenciesChanged ∨ value = kAsioSupportsTimeInfo
        ∨ value = kAsioSupportsTimeCode then 1
    else 0
  else if selector = kAsioEngineVersion then 2
  else if selector = kAsioResetRequest ∨ selector = kAsioResyncRequest
      ∨ selector = kAsioLatenciesChanged then 1
  else if selector = kAsioBufferSizeChange then 0
  else if selector = kAsioSupportsTimeInfo then 1
  else if selector = kAsioSupportsTimeCode then 0
  else 0

/-! ## Routing description -/

/-- The first loop of `getRoutingInfo`, run over the remaining input channels. -/
def describeInputs (s : ASIOHost) : List Nat → String → Except Fault String
  | [], ss => .ok ss
  | i :: rest, ss =>
    (vecGet s.inputChannelNames i).bind fun nm =>
    describeInputs s rest
      (ss ++ "  [" ++ toString i ++ "] " ++ String.mk nm
        ++ (if isVirtualEndpointName nm then " (virtual)" else " (hardware)") ++ "\n")

/-- The second loop of `getRoutingInfo`, run over the remaining output channels. -/
def describeOutputs (s : ASIOHost) : List Nat → String → Except Fault String
  | [], ss => .ok ss
  | i :: rest, ss =>
    (vecGet s.outputChannelNames i).bind fun nm =>
    describeOutputs s rest
      (ss ++ "  [" ++ toString i ++ "] " ++ String.mk nm
        ++ (if isHardwareChannelName nm then " (hardware)" else "") ++ "\n")

/-- The route loop of `getRoutingInfo`, run over the remaining routes. -/
def describeRoutes (s : ASIOHost) : List ChannelRoute → String → Except Fault String
  | [], ss => .ok ss
  | route :: rest, ss =>
    (vecGet s.inputChannelNames route.inputChannel).bind fun inName =>
    (vecGet s.outputChannelNames route.outputChannel).bind fun outName =>
    describeRoutes s rest
      (ss ++ "  In[" ++ toString route.inputChannel ++ "] \"" ++ String.mk inName
        ++ "\" -> Out[" ++ toString route.outputChannel ++ "] \"" ++ String.mk outName ++ "\"\n")

/-- `ASIOHost::getRoutingInfo`. -/
def getRoutingInfo (s : ASIOHost) : Except Fault String :=
  (describeInputs s (upTo s.numInputs) "Input Channels:\n").bind fun ss =>
  (describeOutputs s (upTo s.numOutputs) (ss ++ "\nOutput Channels:\n")).bind fun ss =>
  if s.routes.isEmpty then .ok (ss ++ "\nRouting:\n" ++ "  (no routes configured)\n")
  else describeRoutes s s.routes (ss ++ "\nRouting:\n")

/-- The channel-metadata vectors have as many entries as the channel counts say. -/
def MetadataMatches (s : ASIOHost) : Prop :=
  (s.inputChannelNames.length : Int) = s.numInputs
  ∧ (s.inputSampleTypes.length : Int) = s.numInputs
  ∧ (s.outputChannelNames.length : Int) = s.numOutputs
  ∧ (s.outputSampleTypes.length : Int) = s.numOutputs

/-- The lifecycle flags are nested: running implies buffers created, buffers created
implies initialized, initialized implies a driver is loaded. -/
def FlagsNested (s : ASIOHost) : Prop :=
  (s.running = true → s.buffersCreated = true)
  ∧ (s.buffersCreated = true → s.initialized = true)
  ∧ (s.initialized = true → s.asioDriver.isSome = true)

/-- Answers of the sample driver to buffer creation, as in `sampleCreate`. -/
def sampleAccept : BufReply :=
  { bufferSize := some (4, 1024, 8, 1)
    created := some (fun idx => (some (2 * idx), some (2 * idx + 1))) }

/-! # Theorems -/

/-! ## Routing planner -/

theorem scanNames_ok (p : Name → Bool) (names : List Name) (idxs : List Nat)
    (h : ∀ i ∈ idxs, i < names.length) :
    scanNames p names idxs
      = .ok ((idxs.filter (fun i => p (names.getD i []))).map Int.ofNat) := by
  induction idxs with
  | nil => rfl
  | cons i rest ih =>
    have hi : i < names.length := h i (List.mem_cons_self _ _)
    have hrest : ∀ j ∈ rest, j < names.length := fun j hj => h j (List.mem_cons_of_mem _ hj)
    simp only [scanNames, List.getElem?_eq_getElem hi, ih hrest, List.filter_cons,
      List.getD_eq_getElem _ _ hi]
    by_cases hp : p names[i] = true <;> simp [hp]

theorem pairRoutes_ok (H : List Int) (hH : H ≠ []) (V : List Int) (k : Nat) :
    pairRoutes H k V
      = .ok ((List.range V.length).map
          (fun j => ⟨V.getD j 0, H.getD ((k + j) % H.length) 0⟩)) := by
  have hlen : 0 < H.length := List.length_pos.mpr hH
  induction V generalizing k with
  | nil => rfl
  | cons v rest ih =>
    have hlt : k % H.length < H.length := Nat.mod_lt _ hlen
    simp only [pairRoutes, Nat.ne_of_gt hlen, if_false, List.getElem?_eq_getElem hlt, ih (k + 1),
      List.length_cons, List.range_succ_eq_map, List.map_cons, List.map_map]
    simp [Function.comp_def, List.getElem?_eq_getElem hlt, Nat.add_assoc, Nat.add_comm 1]

theorem pairRoutes_map (Hn Vn : List Nat) (hH : Hn ≠ []) :
    pairRoutes (Hn.map Int.ofNat) 0 (Vn.map Int.ofNat)
      = .ok ((List.range Vn.length).map
          (fun i => ⟨Int.ofNat (Vn.getD i 0), Int.ofNat (Hn.getD (i % Hn.length) 0)⟩)) := by
  have hne : Hn.map Int.ofNat ≠ [] := by simpa using hH
  rw [pairRoutes_ok _ hne]
  simp only [List.length_map, Nat.zero_add]
  apply congrArg
  apply List.map_congr_left
  intro i _
  have e1 : (Vn.map Int.ofNat).getD i 0 = Int.ofNat (Vn.getD i 0) := by
    simp [List.getD_eq_getElem?_getD, List.getElem?_map]
    cases Vn[i]? <;> rfl
  have e2 : (Hn.map Int.ofNat).getD (i % Hn.length) 0 = Int.ofNat (Hn.getD (i % Hn.length) 0) := by
    simp [List.getD_eq_getElem?_getD, List.getElem?_map]
    cases Hn[i % Hn.length]? <;> rfl
  rw [e1, e2]

theorem select_map (l a : List Nat) :
    (if (l.map Int.ofNat).isEmpty then a.map Int.ofNat else l.map Int.ofNat)
      = (if l = [] then a else l).map Int.ofNat := by
  cases l <;> simp

theorem upTo_natCast (n : Nat) : upTo (n : Int) = List.range n := by
  simp [upTo]

theorem detectRouting_eq_spec (ins outs : List Name) (h : outs ≠ []) :
    detectRouting ins.length outs.length ins outs = .ok (specRoutes ins outs) := by
  have hin : ∀ i ∈ List.range ins.length, i < ins.length := fun i hi => List.mem_range.mp hi
  have hout : ∀ i ∈ List.range outs.length, i < outs.length := fun i hi => List.mem_range.mp hi
  have hmin : upTo (min (outs.length : Int) 2) = List.range (min 2 outs.length) := by
    unfold upTo
    congr 1
    omega
  have hHne : specHardwareOutputs outs ≠ [] := by
    unfold specHardwareOutputs specSelect
    simp only
    split
    · have : 0 < outs.length := List.length_pos.mpr h
      intro hr
      have hl := congrArg List.length hr
      simp only [List.length_range, List.length_nil] at hl
      omega
    · assumption
  unfold detectRouting
  rw [upTo_natCast, upTo_natCast, scanNames_ok _ _ _ hin, scanNames_ok _ _ _ hout, hmin]
  simp only
  rw [select_map, select_map]
  exact pairRoutes_map _ _ hHne

theorem specRoutes_inputs (ins outs : List Name) :
    (specRoutes ins outs).map (fun r => r.inputChannel)
      = (specVirtualInputs ins).map Int.ofNat := by
  unfold specRoutes
  simp only [List.map_map]
  apply List.ext_getElem
  · simp
  · intro n h1 h2
    simp only [List.length_map, List.length_range] at h1
    simp [List.getElem?_eq_getElem h1]

/-- C1: with at least one output channel, `detectRouting` yields exactly the routes
`(V[i], H[i mod |H|])`, `i = 0 .. |V|-1`, for the virtual-input set `V` (all inputs when
none is virtual-like) and the hardware-output set `H` (the first `min 2 n` outputs when
none is hardware-like); the sources of the routes are `V` itself, in ascending order,
one route each; the scenarios A, B and C of the specification come out as stated. -/
theorem detectRouting_routes (ins outs : List Name) (h : outs ≠ []) :
    detectRouting ins.length outs.length ins outs = .ok (specRoutes ins outs)
    ∧ (specRoutes ins outs).map (fun r => r.inputChannel)
        = (specVirtualInputs ins).map Int.ofNat
    ∧ detectRouting 2 2 ["System Audio".toList, "Discord".toList]
        ["Speakers (Realtek)".toList, "Speakers (Realtek) 2".toList] = .ok [⟨0, 0⟩, ⟨1, 1⟩]
    ∧ detectRouting 2 4 ["01".toList, "02".toList]
        ["Line Out 1".toList, "Line Out 2".toList, "Line Out 3".toList, "Line Out 4".toList]
        = .ok [⟨0, 0⟩, ⟨1, 1⟩]
    ∧ detectRouting 1 3 ["Music".toList]
        ["Unknown A".toList, "Unknown B".toList, "Unknown C".toList] = .ok [⟨0, 0⟩] :=
  ⟨detectRouting_eq_spec ins outs h, specRoutes_inputs ins outs, by rfl, by rfl, by rfl⟩

/-- Witness of `detectRouting_routes`: five inputs wrapped round-robin on two outputs. -/
theorem detectRouting_routes_witness :
    ["Out L".toList, "Out R".toList] ≠ ([] : List Name)
    ∧ detectRouting 3 2 ["Game".toList, "Music".toList, "Browser".toList]
        ["Out L".toList, "Out R".toList] = .ok [⟨0, 0⟩, ⟨1, 1⟩, ⟨2, 0⟩] :=
  ⟨by decide,
   (detectRouting_routes ["Game".toList, "Music".toList, "Browser".toList]
      ["Out L".toList, "Out R".toList] (by decide)).1.trans (by rfl)⟩

theorem scanNames_nil_names_zero (p : Name → Bool) : scanNames p [] (upTo 0) = .ok [] := rfl

/-- C2: with at least one input channel and zero output channels `detectRouting` does not
complete: the hardware-output list stays empty and the first `i % numHwChannels` is a
modulo by zero. -/
theorem detectRouting_zero_outputs_faults (ins : List Name) (h : ins ≠ []) :
    detectRouting ins.length 0 ins [] = .error Fault.divByZero := by
  have hin : ∀ i ∈ List.range ins.length, i < ins.length := fun i hi => List.mem_range.mp hi
  have hpos : 0 < ins.length := List.length_pos.mpr h
  unfold detectRouting
  rw [upTo_natCast, scanNames_ok _ _ _ hin, scanNames_nil_names_zero]
  simp only
  rw [select_map]
  have hv : (if List.filter (fun i => isVirtualEndpointName (ins.getD i [])) (List.range ins.length) = []
      then List.range ins.length
      else List.filter (fun i => isVirtualEndpointName (ins.getD i [])) (List.range ins.length)) ≠ [] := by
    split
    · intro hr
      have hl := congrArg List.length hr
      simp only [List.length_range, List.length_nil] at hl
      omega
    · assumption
  obtain ⟨v, rest, hvr⟩ := List.exists_cons_of_ne_nil hv
  rw [hvr]
  rfl

/-- Witness of `detectRouting_zero_outputs_faults`: one input named "Music", no output. -/
theorem detectRouting_zero_outputs_faults_witness :
    ["Music".toList] ≠ ([] : List Name)
    ∧ detectRouting 1 0 ["Music".toList] [] = .error Fault.divByZero :=
  ⟨by decide, detectRouting_zero_outputs_faults ["Music".toList] (by decide)⟩

/-! ## Channel classifier -/

theorem strFind_isSome_iff (s pat : Name) : (strFind s pat).isSome = true ↔ pat <:+: s := by
  induction s with
  | nil =>
    unfold strFind
    cases pat <;> simp [List.isPrefixOf]
  | cons c t ih =>
    unfold strFind
    rw [List.infix_cons_iff, ← ih, ← List.isPrefixOf_iff_prefix]
    by_cases hp : pat.isPrefixOf (c :: t) = true
    · simp [hp]
    · simp [hp]

/-- C4: a name whose lower-cased form contains a keyword of `hwPatterns` is hardware-like
and not virtual-like. -/
theorem hardware_keyword_classifies (name : Name)
    (h : ∃ kw ∈ hwPatterns, kw <:+: name.map tolower) :
    isHardwareChannelName name = true ∧ isVirtualEndpointName name = false := by
  have hw : isHardwareChannelName name = true := by
    obtain ⟨kw, hmem, hinf⟩ := h
    have hany : hwPatterns.any (fun pattern => (strFind (name.map tolower) pattern).isSome) = true :=
      List.any_eq_true.mpr ⟨kw, hmem, (strFind_isSome_iff _ _).mpr hinf⟩
    unfold isHardwareChannelName
    simp only [hany, if_true]
  exact ⟨hw, by simp [isVirtualEndpointName, hw]⟩

/-- Witness of `hardware_keyword_classifies`: "My USB Thing" contains "usb". -/
theorem hardware_keyword_classifies_witness :
    (∃ kw ∈ hwPatterns, kw <:+: "My USB Thing".toList.map tolower)
    ∧ isHardwareChannelName "My USB Thing".toList = true
    ∧ isVirtualEndpointName "My USB Thing".toList = false :=
  have hk : ∃ kw ∈ hwPatterns, kw <:+: "My USB Thing".toList.map tolower :=
    ⟨"usb".toList, by decide, by decide⟩
  ⟨hk, hardware_keyword_classifies _ hk⟩

/-- C5: the two classifiers are never both true; on a non-empty name exactly one of them
is true; on the empty name both are false. -/
theorem classifiers_partition (name : Name) :
    ¬ (isHardwareChannelName name = true ∧ isVirtualEndpointName name = true)
    ∧ (name ≠ [] →
        (isHardwareChannelName name = true ∧ isVirtualEndpointName name = false)
        ∨ (isHardwareChannelName name = false ∧ isVirtualEndpointName name = true))
    ∧ isHardwareChannelName [] = false ∧ isVirtualEndpointName [] = false := by
  refine ⟨?_, ?_, by rfl, by rfl⟩
  · rintro ⟨hh, hv⟩
    simp [isVirtualEndpointName, hh] at hv
  · intro hne
    have hpos : 0 < name.length := List.length_pos.mpr hne
    cases hh : isHardwareChannelName name
    · right
      simp [isVirtualEndpointName, hh, hpos]
    · left
      simp [isVirtualEndpointName, hh]

/-- Witness of `classifiers_partition`: "Music" is virtual-like only, "01" hardware-like only. -/
theorem classifiers_partition_witness :
    "Music".toList ≠ []
    ∧ ((isHardwareChannelName "Music".toList = true ∧ isVirtualEndpointName "Music".toList = false)
        ∨ (isHardwareChannelName "Music".toList = false
            ∧ isVirtualEndpointName "Music".toList = true)) :=
  ⟨by decide, (classifiers_partition "Music".toList).2.1 (by decide)⟩

/-! ## Driver session -/

theorem scanNames_mem (p : Name → Bool) (names : List Name) (idxs : List Nat) (found : List Int)
    (h : scanNames p names idxs = .ok found) :
    ∀ x ∈ found, ∃ i ∈ idxs, x = Int.ofNat i := by
  induction idxs generalizing found with
  | nil =>
    simp only [scanNames, Except.ok.injEq] at h
    subst h
    intro x hx
    cases hx
  | cons i rest ih =>
    unfold scanNames at h
    split at h
    · cases h
    · split at h
      · cases h
      · rename_i r hr
        simp only [Except.ok.injEq] at h
        subst h
        intro x hx
        split at hx
        · rcases List.mem_cons.mp hx with rfl | hx1
          · exact ⟨i, List.mem_cons_self _ _, rfl⟩
          · obtain ⟨j, hj, e⟩ := ih r hr x hx1
            exact ⟨j, List.mem_cons_of_mem _ hj, e⟩
        · obtain ⟨j, hj, e⟩ := ih r hr x hx
          exact ⟨j, List.mem_cons_of_mem _ hj, e⟩

theorem pairRoutes_mem (H : List Int) (V : List Int) (k : Nat) (routes : List ChannelRoute)
    (h : pairRoutes H k V = .ok routes) :
    ∀ r ∈ routes, r.inputChannel ∈ V ∧ r.outputChannel ∈ H := by
  induction V generalizing k routes with
  | nil =>
    simp only [pairRoutes, Except.ok.injEq] at h
    subst h
    intro r hr
    cases hr
  | cons v rest ih =>
    unfold pairRoutes at h
    split at h
    · cases h
    · split at h
      · cases h
      · rename_i hh hget
        split at h
        · cases h
        · rename_i r0 hr0
          simp only [Except.ok.injEq] at h
          subst h
          intro r hr
          rcases List.mem_cons.mp hr with rfl | hr1
          · exact ⟨List.mem_cons_self _ _, List.mem_iff_getElem?.mpr ⟨_, hget⟩⟩
          · exact ⟨List.mem_cons_of_mem _ (ih _ _ hr0 r hr1).1, (ih _ _ hr0 r hr1).2⟩

theorem mem_upTo {n : Int} {i : Nat} (h : i ∈ upTo n) : (i : Int) < n := by
  unfold upTo at h
  have := List.mem_range.mp h
  omega

theorem detectRouting_bounds (n m : Int) (ins outs : List Name) (routes : List ChannelRoute)
    (h : detectRouting n m ins outs = .ok routes) :
    ∀ r ∈ routes, 0 ≤ r.inputChannel ∧ r.inputChannel < n
      ∧ 0 ≤ r.outputChannel ∧ r.outputChannel < m := by
  cases hfound : scanNames isVirtualEndpointName ins (upTo n) with
  | error f => simp [detectRouting, hfound] at h
  | ok found =>
    cases hfoundHw : scanNames isHardwareChannelName outs (upTo m) with
    | error f => simp [detectRouting, hfound, hfoundHw] at h
    | ok foundHw =>
      simp only [detectRouting, hfound, hfoundHw] at h
      intro r hr
      obtain ⟨hv, hh⟩ := pairRoutes_mem _ _ _ _ h r hr
      have hV : 0 ≤ r.inputChannel ∧ r.inputChannel < n := by
        split at hv
        · obtain ⟨i, hi, e⟩ := List.mem_map.mp hv
          rw [← e]
          exact ⟨Int.ofNat_nonneg _, mem_upTo hi⟩
        · obtain ⟨i, hi, e⟩ := scanNames_mem _ _ _ _ hfound _ hv
          rw [e]
          exact ⟨Int.ofNat_nonneg _, mem_upTo hi⟩
      have hH : 0 ≤ r.outputChannel ∧ r.outputChannel < m := by
        split at hh
        · obtain ⟨i, hi, e⟩ := List.mem_map.mp hh
          rw [← e]
          have := mem_upTo hi
          exact ⟨Int.ofNat_nonneg _, lt_of_lt_of_le this (min_le_left _ _)⟩
        · obtain ⟨i, hi, e⟩ := scanNames_mem _ _ _ _ hfoundHw _ hh
          rw [e]
          exact ⟨Int.ofNat_nonneg _, mem_upTo hi⟩
      exact ⟨hV.1, hV.2, hH.1, hH.2⟩

theorem bind_eq_ok {α β : Type} {x : Except Fault α} {f : α → Except Fault β} {y : β}
    (h : x.bind f = .ok y) : ∃ a, x = .ok a ∧ f a = .ok y := by
  cases x with
  | error e => cases h
  | ok a => exact ⟨a, rfl, h⟩

theorem map_snd_eq_ok {α β : Type} {x : Except Fault (α × β)} {y : β}
    (h : x.map Prod.snd = .ok y) : ∃ b, x = .ok (b, y) := by
  cases x with
  | error e => cases h
  | ok a =>
    obtain ⟨b, y1⟩ := a
    cases h
    exact ⟨b, rfl⟩

theorem initializeDriver_routes (s s1 : ASIOHost) (r : InitReply) (b : Bool)
    (h : initializeDriver s r = .ok (b, s1)) : s1.routes = s.routes := by
  unfold initializeDriver at h
  split at h
  · cases h; rfl
  · split at h
    · cases h; rfl
    · split at h
      · cases h; rfl
      · obtain ⟨_, _, h⟩ := bind_eq_ok h
        obtain ⟨_, _, h⟩ := bind_eq_ok h
        obtain ⟨_, _, h⟩ := bind_eq_ok h
        obtain ⟨_, _, h⟩ := bind_eq_ok h
        cases h
        rfl

theorem createBuffers_routesInBounds (s s1 : ASIOHost) (p : Int) (r : BufReply) (b : Bool)
    (hinv : RoutesInBounds s) (h : createBuffers s p r = .ok (b, s1)) : RoutesInBounds s1 := by
  unfold createBuffers at h
  split at h
  · cases h; exact hinv
  · split at h
    · cases h; exact hinv
    · obtain ⟨_, _, h⟩ := bind_eq_ok h
      dsimp only at h
      split at h
      · cases h
      · split at h
        · cases h
        · split at h
          · cases h; exact hinv
          · obtain ⟨_, _, h⟩ := bind_eq_ok h
            obtain ⟨_, _, h⟩ := bind_eq_ok h
            obtain ⟨_, _, h⟩ := bind_eq_ok h
            obtain ⟨_, _, h⟩ := bind_eq_ok h
            obtain ⟨routes, hroutes, h⟩ := bind_eq_ok h
            cases h
            exact detectRouting_bounds _ _ _ _ _ hroutes

/-- A discipline that keeps the routes in range: in every state reached by public
operations in which `initialize` is only called while the route table is empty, both
endpoints of every route are within the current channel counts. -/
theorem routes_in_bounds_init_first (s : ASIOHost) (h : ReachableInitFirst s) :
    ∀ r ∈ s.routes,
      0 ≤ r.inputChannel ∧ r.inputChannel < s.numInputs
      ∧ 0 ≤ r.outputChannel ∧ r.outputChannel < s.numOutputs := by
  have empty_ok : ∀ t : ASIOHost, t.routes = [] → RoutesInBounds t := by
    intro t ht r hr
    rw [ht] at hr
    cases hr
  show RoutesInBounds s
  induction h with
  | fresh => exact empty_ok _ rfl
  | next op _ hop hstep ih =>
    cases op with
    | loadDriver name drivers instantiate =>
      cases hstep
      apply empty_ok
      unfold loadDriver
      split
      · rfl
      · split <;> rfl
    | initializeDriver r =>
      obtain ⟨b, h1⟩ := map_snd_eq_ok hstep
      apply empty_ok
      rw [initializeDriver_routes _ _ _ _ h1]
      exact hop r rfl
    | createBuffers p r =>
      obtain ⟨b, h1⟩ := map_snd_eq_ok hstep
      exact createBuffers_routesInBounds _ _ _ _ _ ih h1
    | start startOk =>
      cases hstep
      unfold start
      split
      · exact ih
      · split <;> exact ih
    | stop =>
      cases hstep
      unfold stop
      split <;> exact ih
    | disposeBuffers =>
      cases hstep
      exact empty_ok _ rfl
    | unloadDriver =>
      cases hstep
      exact empty_ok _ rfl

theorem reachable_run (s s1 : ASIOHost) (ops : List Op) (hs : Reachable s)
    (h : run s ops = .ok s1) : Reachable s1 := by
  induction ops generalizing s with
  | nil =>
    cases h
    exact hs
  | cons op rest ih =>
    obtain ⟨s2, h2, h3⟩ := bind_eq_ok h
    exact ih s2 (Reachable.next op hs h2) h3

/-- Witness of `routes_in_bounds_init_first`: the sample session with 2 inputs and 2
outputs, right after buffer creation. -/
theorem routes_in_bounds_init_first_witness :
    ReachableInitFirst (sampleSession 2 2 ASIOSTInt32LSB)
    ∧ ∀ r ∈ (sampleSession 2 2 ASIOSTInt32LSB).routes,
        0 ≤ r.inputChannel ∧ r.inputChannel < (sampleSession 2 2 ASIOSTInt32LSB).numInputs
        ∧ 0 ≤ r.outputChannel ∧ r.outputChannel < (sampleSession 2 2 ASIOSTInt32LSB).numOutputs :=
  have hreach : ReachableInitFirst (sampleSession 2 2 ASIOSTInt32LSB) :=
    ReachableInitFirst.next sampleCreate
      (ReachableInitFirst.next (sampleInit 2 2 ASIOSTInt32LSB)
        (ReachableInitFirst.next sampleLoad ReachableInitFirst.fresh
          (fun _ h => by cases h) rfl)
        (fun _ _ => rfl) rfl)
      (fun _ h => by cases h) rfl
  ⟨hreach, routes_in_bounds_init_first _ hreach⟩

/-! ## Sample codec -/

theorem clamp_of_not_lt_one (v : Fl) (h : fltLt v (litF 1) = false) :
    stdMax (litF (-1)) (stdMin (litF 1) v) = litF 1 := by
  have h1 : stdMin (litF 1) v = litF 1 := by
    unfold stdMin
    rw [h]
    rfl
  rw [h1]
  decide

theorem floatToSample_eq_encode (v : Fl) (buffer : Region) (i : Int) (t : ASIOSampleType) :
    floatToSample v buffer i t
      = (encodeSample v t).bind (fun bs => writeBytes buffer (i * sampleWidth t) bs) := by
  unfold floatToSample encodeSample sampleWidth
  simp only
  split_ifs <;>
    first
    | rfl
    | (cases floatToInt 32 (fmul (stdMax (litF (-1)) (stdMin (litF 1) v)) (litF 2147483647)) <;> rfl)
    | (cases floatToInt 16 (fmul (stdMax (litF (-1)) (stdMin (litF 1) v)) (litF 32767)) <;> rfl)
    | (cases floatToInt 32 (fmul (stdMax (litF (-1)) (stdMin (litF 1) v)) (litF 8388607)) <;> rfl)

theorem sampleToFloat_eq_decode (buffer : Region) (i : Int) (t : ASIOSampleType) :
    sampleToFloat buffer i t
      = (readBytes buffer (i * sampleWidth t) (sampleWidth t)).map
          (fun bs => decodeSample bs t) := by
  unfold sampleToFloat decodeSample sampleWidth
  split_ifs <;> rfl

theorem readBytes_writeBytes (buffer stored : Region) (off : Int) (bs : List Nat)
    (h : writeBytes buffer off bs = .ok stored) :
    readBytes stored off bs.length = .ok bs := by
  unfold writeBytes at h
  split at h
  · rename_i hc
    cases h
    have h1 : off.toNat ≤ buffer.length := by omega
    unfold readBytes
    have hlen : ((buffer.take off.toNat ++ bs ++ buffer.drop (off.toNat + bs.length)).length : Int)
        = buffer.length := by
      simp only [List.length_append, List.length_take, List.length_drop]
      omega
    rw [if_pos ⟨hc.1, by rw [hlen]; exact hc.2⟩]
    congr 1
    rw [List.append_assoc, List.drop_append_of_le_length (by simp [h1])]
    have : List.drop off.toNat (List.take off.toNat buffer) = [] := by
      apply List.drop_eq_nil_of_le
      simp
    rw [this, List.nil_append, List.take_append_of_le_length (le_refl _), List.take_length]
  · cases h

theorem writeBytes_ok (buffer : Region) (off : Int) (bs : List Nat)
    (h0 : 0 ≤ off) (hfit : off + bs.length ≤ buffer.length) :
    ∃ stored, writeBytes buffer off bs = .ok stored := by
  unfold writeBytes
  rw [if_pos ⟨h0, hfit⟩]
  exact ⟨_, rfl⟩

theorem roundTrip_of_check (x : Fl) (t : ASIOSampleType) (buffer : Region) (i : Int)
    (hc : roundTripCheck x t = true) (h0 : 0 ≤ i)
    (hfit : (i + 1) * sampleWidth t ≤ buffer.length) :
    ∃ y, roundTrip x buffer i t = .ok y ∧ withinStep x y (quantStep t) = true := by
  unfold roundTripCheck at hc
  cases henc : encodeSample x t with
  | error f => rw [henc] at hc; cases hc
  | ok bs =>
    rw [henc] at hc
    simp only [Bool.and_eq_true, beq_iff_eq] at hc
    obtain ⟨hlen, hstep⟩ := hc
    have hw : (0 : Int) ≤ sampleWidth t := Int.ofNat_nonneg _
    obtain ⟨stored, hst⟩ := writeBytes_ok buffer (i * sampleWidth t) bs
      (Int.mul_nonneg h0 hw) (by rw [hlen]; linarith)
    refine ⟨decodeSample bs t, ?_, hstep⟩
    unfold roundTrip
    rw [floatToSample_eq_encode, henc]
    simp only [Except.bind]
    rw [hst]
    simp only []
    have hrd := readBytes_writeBytes _ _ _ _ hst
    rw [hlen] at hrd
    rw [sampleToFloat_eq_decode, hrd]
    rfl

/-- C6: on a buffer with room for frame `i`, every supported format and every test value
other than `1.0` in the 32-bit integer format round-trips within one quantization step
(exactly for the float formats). Encoding `1.0` in the 32-bit integer format never
reaches the store: the scale factor `2147483647.0f` is the `float` `2^31`, the product
`2^31` exceeds `int32_t`, and the conversion is undefined. The pattern `0x80000000` that
the conversion leaves on x86 decodes to `-1.0`. -/
theorem roundtrip_test_values (buffer : Region) (i : Int) (t : ASIOSampleType) (x : Fl)
    (ht : t ∈ supportedTypes) (hx : x ∈ testValues) (h0 : 0 ≤ i)
    (hfit : (i + 1) * sampleWidth t ≤ buffer.length) :
    (¬ (t = ASIOSTInt32LSB ∧ x = litF 1) →
        ∃ y, roundTrip x buffer i t = .ok y ∧ withinStep x y (quantStep t) = true)
    ∧ roundTrip (litF 1) buffer i ASIOSTInt32LSB = .error Fault.floatToIntOverflow
    ∧ litF 2147483647 = litF 2147483648
    ∧ decodeSample (leBytes 4 (-2147483648)) ASIOSTInt32LSB = litF (-1) := by
  refine ⟨?_, ?_, by decide, by decide⟩
  · intro hne
    have hall : ∀ t ∈ supportedTypes, ∀ x ∈ testValues,
        (t = ASIOSTInt32LSB ∧ x = litF 1) ∨ roundTripCheck x t = true := by decide
    rcases hall t ht x hx with hbad | hgood
    · exact absurd hbad hne
    · exact roundTrip_of_check x t buffer i hgood h0 hfit
  · have h : floatToSample (litF 1) buffer i ASIOSTInt32LSB
        = .error Fault.floatToIntOverflow := by
      unfold floatToSample
      rw [clamp_of_not_lt_one _ (by decide)]
      rfl
    unfold roundTrip
    rw [h]
    rfl

/-- Witness of `roundtrip_test_values`: `-0.5` in the 24-bit format, frame 1 of a
six-byte buffer. -/
theorem roundtrip_test_values_witness :
    ASIOSTInt24LSB ∈ supportedTypes ∧ fdivPow2 (litF (-1)) 1 ∈ testValues ∧ (0 : Int) ≤ 1
    ∧ ((1 : Int) + 1) * sampleWidth ASIOSTInt24LSB ≤ ([9, 9, 9, 9, 9, 9] : Region).length
    ∧ ∃ y, roundTrip (fdivPow2 (litF (-1)) 1) [9, 9, 9, 9, 9, 9] 1 ASIOSTInt24LSB = .ok y
        ∧ withinStep (fdivPow2 (litF (-1)) 1) y (quantStep ASIOSTInt24LSB) = true :=
  ⟨by decide, by decide, by decide, by decide,
    (roundtrip_test_values [9, 9, 9, 9, 9, 9] 1 ASIOSTInt24LSB (fdivPow2 (litF (-1)) 1)
      (by decide) (by decide) (by decide) (by decide)).1 (by decide)⟩

theorem clamp_of_not_gt_neg_one (v : Fl) (hnan : v ≠ Fl.nan)
    (h : fltLt (litF (-1)) v = false) :
    stdMax (litF (-1)) (stdMin (litF 1) v) = litF (-1) := by
  have e1 : litF (-1) = Fl.fin true 8388608 (-23) := by decide
  have e2 : litF 1 = Fl.fin false 8388608 (-23) := by decide
  have hlt : fltLt v (litF 1) = true := by
    rw [e1] at h
    rw [e2]
    cases v with
    | nan => exact absurd rfl hnan
    | inf neg =>
      cases neg
      · simp [fltLt] at h
      · rfl
    | fin n m e =>
      simp only [fltLt, decide_eq_false_iff_not, not_lt] at h
      simp only [fltLt, decide_eq_true_eq]
      rw [min_comm e (-23)]
      have hp : (0 : Int) < ((8388608 : Nat) : Int) * 2 ^ (-23 - min (-23) e).toNat := by positivity
      have h3 : scaled true 8388608 (-23) (min (-23) e)
          = -(((8388608 : Nat) : Int) * 2 ^ (-23 - min (-23) e).toNat) := by
        simp [scaled]
      rw [h3] at h
      have h2 : scaled false 8388608 (-23) (min (-23) e)
          = ((8388608 : Nat) : Int) * 2 ^ (-23 - min (-23) e).toNat := by
        simp [scaled]
      rw [h2]
      omega
  have h1 : stdMin (litF 1) v = v := by
    unfold stdMin
    rw [hlt]
    rfl
  rw [h1]
  unfold stdMax
  rw [h]
  rfl

/-- C7: for every input `v` that is not below `1.0` (`+inf` and NaN included) the 32-bit
integer path of `floatToSample` scales to `2^31` and converts it to `int32_t`, which
overflows, while the 16-bit and 24-bit paths store the positive maxima `32767` and
`8388607`; for every input `u` that is not above `-1.0` the 32-bit path stores `-2^31`,
not `-(2^31 - 1)`, while the 16-bit and 24-bit paths store `-32767` and `-8388607`. -/
theorem floatToSample_int32_overflow (v : Fl) (buffer : Region) (i : Int)
    (h : fltLt v (litF 1) = false) :
    floatToSample v buffer i ASIOSTInt32LSB = .error Fault.floatToIntOverflow
    ∧ floatToSample v buffer i ASIOSTInt16LSB = writeBytes buffer (i * 2) (leBytes 2 32767)
    ∧ floatToSample v buffer i ASIOSTInt24LSB = writeBytes buffer (i * 3) (store24 8388607)
    ∧ ∀ u : Fl, u ≠ Fl.nan → fltLt (litF (-1)) u = false →
        floatToSample u buffer i ASIOSTInt32LSB
          = writeBytes buffer (i * 4) (leBytes 4 (-2147483648))
        ∧ floatToSample u buffer i ASIOSTInt16LSB
          = writeBytes buffer (i * 2) (leBytes 2 (-32767))
        ∧ floatToSample u buffer i ASIOSTInt24LSB
          = writeBytes buffer (i * 3) (store24 (-8388607)) := by
  refine ⟨?_, ?_, ?_, ?_⟩
  · unfold floatToSample
    rw [clamp_of_not_lt_one _ h]
    rfl
  · unfold floatToSample
    rw [clamp_of_not_lt_one _ h]
    rfl
  · unfold floatToSample
    rw [clamp_of_not_lt_one _ h]
    rfl
  · intro u hnan hu
    refine ⟨?_, ?_, ?_⟩
    · unfold floatToSample
      rw [clamp_of_not_gt_neg_one _ hnan hu]
      rfl
    · unfold floatToSample
      rw [clamp_of_not_gt_neg_one _ hnan hu]
      rfl
    · unfold floatToSample
      rw [clamp_of_not_gt_neg_one _ hnan hu]
      rfl

/-- Witness of `floatToSample_int32_overflow`: the input `2.0` on an 8-byte buffer. -/
theorem floatToSample_int32_overflow_witness :
    fltLt (litF 2) (litF 1) = false
    ∧ floatToSample (litF 2) [0, 0, 0, 0, 0, 0, 0, 0] 1 ASIOSTInt32LSB
        = .error Fault.floatToIntOverflow
    ∧ floatToSample (litF 2) [0, 0, 0, 0, 0, 0, 0, 0] 1 ASIOSTInt16LSB
        = .ok [0, 0, 255, 127, 0, 0, 0, 0] :=
  ⟨by decide,
    (floatToSample_int32_overflow (litF 2) [0, 0, 0, 0, 0, 0, 0, 0] 1 (by decide)).1,
    (floatToSample_int32_overflow (litF 2) [0, 0, 0, 0, 0, 0, 0, 0] 1 (by decide)).2.1.trans
      (by decide)⟩

/-! ## Real-time callback -/

/-- C8 (failing input): the sample session, started and then disposed of, is reachable and
still running, and `bufferSwitch` for half 0 subscripts the emptied `outputBuffers[0]`;
the same happens through the emptied `outputSampleTypes` after `unloadDriver`. -/
theorem bufferSwitch_faults_after_dispose (mem : Mem) :
    ∃ s1 s2 : ASIOHost,
      run {} [sampleLoad, sampleInit 2 2 ASIOSTInt32LSB, sampleCreate, .start true,
          .disposeBuffers] = .ok s1
      ∧ run {} [sampleLoad, sampleInit 2 2 ASIOSTInt32LSB, sampleCreate, .start true,
          .unloadDriver] = .ok s2
      ∧ Reachable s1 ∧ Reachable s2
      ∧ s1.running = true ∧ s2.running = true
      ∧ bufferSwitch s1 mem 0 = .error Fault.outOfRange
      ∧ bufferSwitch s2 mem 0 = .error Fault.outOfRange := by
  have h1 : ∃ s1 : ASIOHost,
      run {} [sampleLoad, sampleInit 2 2 ASIOSTInt32LSB, sampleCreate, .start true,
          .disposeBuffers] = .ok s1
      ∧ s1.running = true ∧ bufferSwitch s1 mem 0 = .error Fault.outOfRange :=
    ⟨_, rfl, rfl, rfl⟩
  have h2 : ∃ s2 : ASIOHost,
      run {} [sampleLoad, sampleInit 2 2 ASIOSTInt32LSB, sampleCreate, .start true,
          .unloadDriver] = .ok s2
      ∧ s2.running = true ∧ bufferSwitch s2 mem 0 = .error Fault.outOfRange :=
    ⟨_, rfl, rfl, rfl⟩
  obtain ⟨s1, r1, a1, b1⟩ := h1
  obtain ⟨s2, r2, a2, b2⟩ := h2
  exact ⟨s1, s2, r1, r2, reachable_run _ _ _ Reachable.fresh r1,
    reachable_run _ _ _ Reachable.fresh r2, a1, a2, b1, b2⟩

/-! ## Loading a driver -/

theorem getBytesPerSample_pos (ty : ASIOSampleType) : 0 < getBytesPerSample ty := by
  unfold getBytesPerSample
  split_ifs <;> decide

theorem vecGet_natCast {α : Type} (v : List α) (n : Nat) (x : α) (h : v[n]? = some x) :
    vecGet v (n : Int) = .ok x := by
  unfold vecGet
  have : ¬ ((n : Int) < 0) := by omega
  simp only [this, if_false, Int.toNat_ofNat, h]

theorem memsetZero_spec (mem : Mem) (a : Nat) (bytes : Int) (region : Region)
    (hreg : mem[a]? = some region) (h0 : 0 ≤ bytes) (hlen : bytes ≤ region.length) :
    ∃ mem1, memsetZero mem (some a) bytes = .ok mem1
      ∧ (∀ b : Nat, (mem1[b]?).map List.length = (mem[b]?).map List.length)
      ∧ (∀ b : Nat, b ≠ a → mem1[b]? = mem[b]?)
      ∧ (∀ b k, byteAt mem b k = some 0 → byteAt mem1 b k = some 0)
      ∧ (∀ k : Nat, (k : Int) < bytes → byteAt mem1 a k = some 0) := by
  have ha : a < mem.length := by
    by_contra hcon
    rw [List.getElem?_eq_none (by omega)] at hreg
    cases hreg
  have hb : bytes.toNat ≤ region.length := by omega
  refine ⟨mem.set a (List.replicate bytes.toNat 0 ++ region.drop bytes.toNat), ?_, ?_, ?_, ?_, ?_⟩
  · unfold memsetZero
    simp only [hreg]
    have : ¬ (bytes < 0 ∨ (region.length : Int) < bytes) := by omega
    simp only [this, if_false]
  · intro b
    by_cases hba : b = a
    · subst hba
      simp [List.getElem?_set_self ha, hreg, hb]
    · rw [List.getElem?_set_ne (Ne.symm hba)]
  · intro b hba
    rw [List.getElem?_set_ne (Ne.symm hba)]
  · intro b k hz
    by_cases hba : b = a
    · subst hba
      unfold byteAt at hz ⊢
      rw [hreg] at hz
      simp only [Option.some_bind] at hz
      rw [List.getElem?_set_self ha]
      simp only [Option.some_bind]
      by_cases hk : k < bytes.toNat
      · rw [List.getElem?_append_left (by simpa using hk)]
        simp [hk]
      · rw [List.getElem?_append_right (by simpa using hk)]
        simp only [List.length_replicate, List.getElem?_drop]
        rw [← hz]
        congr 1
        omega
    · unfold byteAt at hz ⊢
      rw [List.getElem?_set_ne (Ne.symm hba)]
      exact hz
  · intro k hk
    have hk1 : k < bytes.toNat := by omega
    unfold byteAt
    rw [List.getElem?_set_self ha]
    simp only [Option.some_bind]
    rw [List.getElem?_append_left (by simpa using hk1)]
    simp [hk1]

theorem clearOutputs_spec (s : ASIOHost) (index : Int) (bufs : List Ptr)
    (hb : s.outputBuffers index = .ok bufs) (hsz : 0 ≤ s.bufferSize) (L : List Nat) :
    ∀ mem : Mem,
      (∀ ch ∈ L, ∃ ty a len, s.outputSampleTypes[ch]? = some ty ∧ bufs[ch]? = some (some a)
          ∧ (mem[a]?).map List.length = some len
          ∧ getBytesPerSample ty * s.bufferSize ≤ (len : Int)) →
      ∃ mem1, clearOutputs s index L mem = .ok mem1
        ∧ (∀ b : Nat, (mem1[b]?).map List.length = (mem[b]?).map List.length)
        ∧ (∀ b : Nat, (∀ ch ∈ L, bufs[ch]? ≠ some (some b)) → mem1[b]? = mem[b]?)
        ∧ (∀ b k, byteAt mem b k = some 0 → byteAt mem1 b k = some 0)
        ∧ (∀ ch ∈ L, ∀ ty a, s.outputSampleTypes[ch]? = some ty → bufs[ch]? = some (some a) →
            ∀ k : Nat, (k : Int) < getBytesPerSample ty * s.bufferSize →
              byteAt mem1 a k = some 0) := by
  induction L with
  | nil =>
    intro mem _
    exact ⟨mem, rfl, fun _ => rfl, fun _ _ => rfl, fun _ _ h => h, fun ch hch => by cases hch⟩
  | cons c rest ih =>
    intro mem hvalid
    obtain ⟨ty, a, len, hty, hbuf, hlen, hfit⟩ := hvalid c (List.mem_cons_self _ _)
    obtain ⟨region, hreg, hrl⟩ : ∃ region, mem[a]? = some region ∧ region.length = len := by
      cases hm : mem[a]? with
      | none => rw [hm] at hlen; cases hlen
      | some region =>
        rw [hm] at hlen
        simp only [Option.map_some', Option.some.injEq] at hlen
        exact ⟨region, rfl, hlen⟩
    have h0 : 0 ≤ getBytesPerSample ty * s.bufferSize :=
      Int.mul_nonneg (le_of_lt (getBytesPerSample_pos ty)) hsz
    obtain ⟨mem1, hset, hl1, hne1, hz1, hzero1⟩ :=
      memsetZero_spec mem a _ region hreg h0 (by rw [hrl]; exact hfit)
    have hvalid1 : ∀ ch ∈ rest, ∃ ty a len, s.outputSampleTypes[ch]? = some ty
        ∧ bufs[ch]? = some (some a) ∧ (mem1[a]?).map List.length = some len
        ∧ getBytesPerSample ty * s.bufferSize ≤ (len : Int) := by
      intro ch hch
      obtain ⟨ty2, a2, len2, h1, h2, h3, h4⟩ := hvalid ch (List.mem_cons_of_mem _ hch)
      exact ⟨ty2, a2, len2, h1, h2, by rw [hl1]; exact h3, h4⟩
    obtain ⟨mem2, hrest, hl2, hne2, hz2, hzero2⟩ := ih mem1 hvalid1
    refine ⟨mem2, ?_, ?_, ?_, ?_, ?_⟩
    · unfold clearOutputs
      rw [vecGet_natCast _ _ _ hty, hb]
      simp only [Except.bind]
      rw [vecGet_natCast _ _ _ hbuf]
      simp only [hset]
      exact hrest
    · intro b
      rw [hl2, hl1]
    · intro b hnot
      rw [hne2 b (fun ch hch => hnot ch (List.mem_cons_of_mem _ hch))]
      apply hne1
      intro hba
      subst hba
      exact hnot c (List.mem_cons_self _ _) hbuf
    · intro b k hz
      exact hz2 b k (hz1 b k hz)
    · intro ch hch ty2 a2 hty2 hbuf2 k hk
      rcases List.mem_cons.mp hch with rfl | hch1
      · rw [hty] at hty2
        rw [hbuf] at hbuf2
        cases hty2
        cases hbuf2
        exact hz2 _ _ (hzero1 k hk)
      · exact hzero2 ch hch1 ty2 a2 hty2 hbuf2 k hk

/-- Zero-fill under the driver's contract: in a running session with an empty route
table and a loaded driver, whose output channels all have a buffer of a full period in driver memory, `bufferSwitch` for half 0
or 1 completes, calls `outputReady` exactly once, leaves the first
`getBytesPerSample(format) * bufferSize` bytes of the indexed half of every output
channel zero, and leaves every region that is not one of these buffers (the input
buffers and the other half) as it was. -/
theorem bufferSwitch_empty_routes (s : ASIOHost) (mem : Mem) (index : Int)
    (hrun : s.running = true) (hroutes : s.routes = []) (hdrv : s.asioDriver.isSome = true)
    (hidx : index = 0 ∨ index = 1) (hready : OutputsReady s mem index) :
    ∃ mem1 bufs, bufferSwitch s mem index = .ok (mem1, [DriverCall.outputReady])
      ∧ s.outputBuffers index = .ok bufs
      ∧ (∀ ch ∈ upTo s.numOutputs, ∀ ty a, s.outputSampleTypes[ch]? = some ty →
          bufs[ch]? = some (some a) →
          ∀ k : Nat, (k : Int) < getBytesPerSample ty * s.bufferSize → byteAt mem1 a k = some 0)
      ∧ (∀ b : Nat, (∀ ch ∈ upTo s.numOutputs, bufs[ch]? ≠ some (some b)) → mem1[b]? = mem[b]?)
      ∧ (∀ b : Nat, (mem1[b]?).map List.length = (mem[b]?).map List.length) := by
  obtain ⟨hsz, hvalid0⟩ := hready
  obtain ⟨bufs, hb⟩ : ∃ bufs, s.outputBuffers index = .ok bufs := by
    rcases hidx with rfl | rfl
    · exact ⟨s.outputBuffers0, rfl⟩
    · exact ⟨s.outputBuffers1, rfl⟩
  have hvalid := hvalid0 bufs hb
  have hvalid1 : ∀ ch ∈ upTo s.numOutputs, ∃ ty a len, s.outputSampleTypes[ch]? = some ty
      ∧ bufs[ch]? = some (some a) ∧ (mem[a]?).map List.length = some len
      ∧ getBytesPerSample ty * s.bufferSize ≤ (len : Int) := by
    intro ch hch
    obtain ⟨ty, a, region, h1, h2, h3, h4⟩ := hvalid ch hch
    exact ⟨ty, a, region.length, h1, h2, by rw [h3]; rfl, h4⟩
  obtain ⟨mem1, hclear, hl, hne, _, hzero⟩ :=
    clearOutputs_spec s index bufs hb hsz (upTo s.numOutputs) mem hvalid1
  refine ⟨mem1, bufs, ?_, hb, hzero, hne, hl⟩
  unfold bufferSwitch
  simp only [hrun, hclear, hroutes, hdrv, Except.bind, processRoutes]
  rfl

/-- Witness of `bufferSwitch_empty_routes`: the running sample session without inputs,
half 1, on memory filled with sevens. -/
theorem bufferSwitch_empty_routes_witness :
    sampleRunning.running = true ∧ sampleRunning.routes = []
    ∧ sampleRunning.asioDriver.isSome = true ∧ ((1 : Int) = 0 ∨ (1 : Int) = 1)
    ∧ OutputsReady sampleRunning sampleMem 1
    ∧ ∃ mem1 bufs, bufferSwitch sampleRunning sampleMem 1 = .ok (mem1, [DriverCall.outputReady])
        ∧ sampleRunning.outputBuffers 1 = .ok bufs
        ∧ (∀ ch ∈ upTo sampleRunning.numOutputs, ∀ ty a,
            sampleRunning.outputSampleTypes[ch]? = some ty → bufs[ch]? = some (some a) →
            ∀ k : Nat, (k : Int) < getBytesPerSample ty * sampleRunning.bufferSize →
              byteAt mem1 a k = some 0)
        ∧ (∀ b : Nat, (∀ ch ∈ upTo sampleRunning.numOutputs, bufs[ch]? ≠ some (some b)) →
            mem1[b]? = sampleMem[b]?)
        ∧ (∀ b : Nat, (mem1[b]?).map List.length = (sampleMem[b]?).map List.length) :=
  have hready : OutputsReady sampleRunning sampleMem 1 := by
    refine ⟨by decide, ?_⟩
    intro bufs hb ch hch
    have hb1 : bufs = [some 1, some 3] := by
      have : sampleRunning.outputBuffers 1 = .ok [some 1, some 3] := rfl
      rw [this] at hb
      cases hb
      rfl
    subst hb1
    have hch1 : ch = 0 ∨ ch = 1 := by
      have : upTo sampleRunning.numOutputs = [0, 1] := rfl
      rw [this] at hch
      simpa using hch
    rcases hch1 with rfl | rfl
    · exact ⟨16, 1, List.replicate 16 7, rfl, rfl, rfl, by decide⟩
    · exact ⟨16, 3, List.replicate 16 7, rfl, rfl, rfl, by decide⟩
  ⟨rfl, rfl, rfl, Or.inr rfl, hready,
    bufferSwitch_empty_routes sampleRunning sampleMem 1 rfl rfl rfl (Or.inr rfl) hready⟩

/-! ## Channel classifier: the half-digits rule -/

/-- C13: a non-empty name in which at least half of the characters are digits, hyphens
or spaces (`2 * count ≥ length`) is hardware-like, whatever the other characters are. -/
theorem mostly_digits_is_hardware (name : Name) (hne : name ≠ [])
    (h : name.length ≤ 2 * name.countP (fun c => isdigit c || c == '-' || c == ' ')) :
    isHardwareChannelName name = true := by
  have hpos : 0 < name.length := List.length_pos.mpr hne
  have hhalf : name.length / 2 ≤ name.countP (fun c => isdigit c || c == '-' || c == ' ') := by
    omega
  unfold isHardwareChannelName
  simp only
  split
  · rfl
  · split
    · rfl
    · simp [hpos, hhalf]

/-- Witness of `mostly_digits_is_hardware`: "1-2x" has three of four such characters. -/
theorem mostly_digits_is_hardware_witness :
    "1-2x".toList ≠ []
    ∧ "1-2x".toList.length
        ≤ 2 * "1-2x".toList.countP (fun c => isdigit c || c == '-' || c == ' ')
    ∧ isHardwareChannelName "1-2x".toList = true :=
  ⟨by decide, by decide, mostly_digits_is_hardware "1-2x".toList (by decide) (by decide)⟩

theorem strFind_zero_iff (s pat : Name) : strFind s pat = some 0 ↔ pat.isPrefixOf s = true := by
  cases s with
  | nil =>
    unfold strFind
    split <;> simp_all
  | cons c t =>
    unfold strFind
    split
    · simp_all
    · rename_i hp
      simp only [hp, iff_false]
      cases strFind t pat <;> simp

/-- C15: for a non-empty name that contains no hardware keyword and does not start with
"ch", `isHardwareChannelName` is the test `count ≥ length / 2` with the integer quotient,
and `isVirtualEndpointName` its negation. With fewer than half such characters the name
is still hardware-like whenever `count = (length - 1) / 2`: "X" (0 of 1) and "A1B"
(1 of 3) are hardware-like and not virtual-like. -/
theorem short_names_are_hardware (name : Name) (hne : name ≠ [])
    (hkw : ∀ kw ∈ hwPatterns, ¬ kw <:+: name.map tolower)
    (hch : ¬ "ch".toList <+: name.map tolower) :
    isHardwareChannelName name
        = decide (name.length / 2 ≤ name.countP (fun c => isdigit c || c == '-' || c == ' '))
    ∧ isVirtualEndpointName name
        = !decide (name.length / 2 ≤ name.countP (fun c => isdigit c || c == '-' || c == ' '))
    ∧ isHardwareChannelName "X".toList = true ∧ isVirtualEndpointName "X".toList = false
    ∧ isHardwareChannelName "A1B".toList = true ∧ isVirtualEndpointName "A1B".toList = false := by
  have hpos : 0 < name.length := List.length_pos.mpr hne
  have hany : hwPatterns.any (fun pattern => (strFind (name.map tolower) pattern).isSome) = false := by
    rw [Bool.eq_false_iff]
    intro hc
    obtain ⟨kw, hmem, hs⟩ := List.any_eq_true.mp hc
    exact hkw kw hmem ((strFind_isSome_iff _ _).mp hs)
  have hc1 : strFind (name.map tolower) "ch".toList ≠ some 0 := by
    intro hc
    exact hch (List.isPrefixOf_iff_prefix.mp ((strFind_zero_iff _ _).mp hc))
  have hc2 : strFind (name.map tolower) "ch ".toList ≠ some 0 := by
    intro hc
    have hp : "ch ".toList <+: name.map tolower :=
      List.isPrefixOf_iff_prefix.mp ((strFind_zero_iff _ _).mp hc)
    exact hch (List.IsPrefix.trans (by decide) hp)
  have hw : isHardwareChannelName name
      = decide (name.length / 2 ≤ name.countP (fun c => isdigit c || c == '-' || c == ' ')) := by
    unfold isHardwareChannelName
    have hc1' : strFind (name.map tolower) ['c', 'h'] ≠ some 0 := hc1
    have hc2' : strFind (name.map tolower) ['c', 'h', ' '] ≠ some 0 := hc2
    simp only [hany]
    simp [hc1', hc2', hpos]
  refine ⟨hw, ?_, by decide, by decide, by decide, by decide⟩
  unfold isVirtualEndpointName
  rw [hw]
  by_cases hd : name.length / 2 ≤ name.countP (fun c => isdigit c || c == '-' || c == ' ')
  · simp [hd]
  · simp [hd, hpos]

/-- Witness of `short_names_are_hardware`: the name "Mix", with no such character, is
virtual-like. -/
theorem short_names_are_hardware_witness :
    "Mix".toList ≠ []
    ∧ (∀ kw ∈ hwPatterns, ¬ kw <:+: "Mix".toList.map tolower)
    ∧ ¬ "ch".toList <+: "Mix".toList.map tolower
    ∧ isHardwareChannelName "Mix".toList = false
    ∧ isVirtualEndpointName "Mix".toList = true :=
  have h := short_names_are_hardware "Mix".toList (by decide) (by decide) (by decide)
  ⟨by decide, by decide, by decide, h.1.trans (by decide), h.2.1.trans (by decide)⟩

/-! ## Driver messages -/

/-- C14 (as amended): whatever the other arguments, the selector-supported query is
answered 1 for reset request, engine version, resync request, latencies changed,
supports-time-info and supports-time-code, and 0 for every other selector; the direct
selectors reset request, resync request, latencies changed and supports-time-info are
answered 1, engine version 2, and supports-time-code 0. -/
theorem asioMessage_answers (value : Int) (message opt : Ptr) :
    (asioMessageCallback kAsioSelectorSupported value message opt
        = if value = kAsioResetRequest ∨ value = kAsioEngineVersion
            ∨ value = kAsioResyncRequest ∨ value = kAsioLatenciesChanged
            ∨ value = kAsioSupportsTimeInfo ∨ value = kAsioSupportsTimeCode then 1 else 0)
    ∧ asioMessageCallback kAsioSelectorSupported kAsioResetRequest message opt = 1
    ∧ asioMessageCallback kAsioSelectorSupported kAsioResyncRequest message opt = 1
    ∧ asioMessageCallback kAsioSelectorSupported kAsioLatenciesChanged message opt = 1
    ∧ asioMessageCallback kAsioSelectorSupported kAsioSupportsTimeInfo message opt = 1
    ∧ asioMessageCallback kAsioSelectorSupported kAsioSupportsTimeCode message opt = 1
    ∧ asioMessageCallback kAsioResetRequest value message opt = 1
    ∧ asioMessageCallback kAsioResyncRequest value message opt = 1
    ∧ asioMessageCallback kAsioLatenciesChanged value message opt = 1
    ∧ asioMessageCallback kAsioSupportsTimeInfo value message opt = 1
    ∧ asioMessageCallback kAsioEngineVersion value message opt = 2
    ∧ asioMessageCallback kAsioSupportsTimeCode value message opt = 0 :=
  ⟨rfl, rfl, rfl, rfl, rfl, rfl, rfl, rfl, rfl, rfl, rfl, rfl⟩

/-- C14 (counterexample): asked whether the supports-time-code selector is supported, the
callback answers 1, not 0. -/
theorem asioMessage_time_code_supported :
    asioMessageCallback kAsioSelectorSupported kAsioSupportsTimeCode none none = 1
    ∧ asioMessageCallback kAsioSelectorSupported kAsioSupportsTimeCode none none ≠ 0 :=
  ⟨rfl, by decide⟩

/-! ## The 24-bit path at the integer level -/

theorem load24_eq (b0 b1 b2 : Nat) (h0 : b0 < 256) (h1 : b1 < 256) (h2 : b2 < 256) :
    load24 b0 b1 b2
      = if b0 + 256 * b1 + 65536 * b2 < 8388608 then ((b0 + 256 * b1 + 65536 * b2 : Nat) : Int)
        else ((b0 + 256 * b1 + 65536 * b2 : Nat) : Int) - 16777216 := by
  have hval : b0 ||| (b1 <<< 8) ||| (b2 <<< 16) = b0 + 256 * b1 + 65536 * b2 := by
    have e1 : b0 ||| (b1 <<< 8) = 2 ^ 8 * b1 + b0 := by
      rw [Nat.shiftLeft_eq, Nat.lor_comm, Nat.mul_comm b1, ← Nat.mul_add_lt_is_or (by omega)]
    have e2 : (b0 ||| (b1 <<< 8)) ||| (b2 <<< 16) = 2 ^ 16 * b2 + (2 ^ 8 * b1 + b0) := by
      rw [e1, Nat.shiftLeft_eq, Nat.lor_comm, Nat.mul_comm b2,
        ← Nat.mul_add_lt_is_or (by omega)]
    rw [e2]
    omega
  set val := b0 + 256 * b1 + 65536 * b2 with hv
  have hlt : val < 16777216 := by omega
  have hand : val &&& 0x800000 = if val < 8388608 then 0 else 8388608 := by
    have : (0x800000 : Nat) = 2 ^ 23 := by norm_num
    rw [this, Nat.and_two_pow, Nat.testBit_to_div_mod]
    by_cases hs : val < 8388608
    · have h3 : val / 2 ^ 23 % 2 = 0 := by omega
      rw [h3]
      simp [hs]
    · have h3 : val / 2 ^ 23 % 2 = 1 := by omega
      rw [h3]
      simp [hs]
  have hor : val ||| 0xFF000000 = 4278190080 + val := by
    have : (0xFF000000 : Nat) = 2 ^ 24 * 255 := by norm_num
    rw [this, Nat.lor_comm, ← Nat.mul_add_lt_is_or (by omega)]
  unfold load24
  simp only [hval, hand, hor]
  by_cases hs : val < 8388608
  · simp [hs]
  · simp only [hs, if_false]
    unfold toSigned
    have hm : (4278190080 + val) % 2 ^ 32 = 4278190080 + val := by omega
    rw [hm]
    have : ¬ (4278190080 + val < 2 ^ (32 - 1)) := by omega
    simp only [this, if_false]
    push_cast
    simp
    omega

theorem load24_store24 (v : Int) (hlo : -8388608 ≤ v) (hhi : v ≤ 8388607) :
    load24 (v % 256).toNat ((v / 2 ^ 8) % 256).toNat ((v / 2 ^ 16) % 256).toNat = v := by
  have c0 : ((v % 256).toNat : Int) = v % 256 := Int.toNat_of_nonneg (by omega)
  have c1 : (((v / 2 ^ 8) % 256).toNat : Int) = (v / 2 ^ 8) % 256 := Int.toNat_of_nonneg (by omega)
  have c2 : (((v / 2 ^ 16) % 256).toNat : Int) = (v / 2 ^ 16) % 256 :=
    Int.toNat_of_nonneg (by omega)
  rw [load24_eq _ _ _ (by omega) (by omega) (by omega)]
  split
  · rename_i hs
    push_cast
    omega
  · rename_i hs
    push_cast
    omega

theorem writeBytes_frame (buffer stored : Region) (off : Int) (bs : List Nat)
    (h : writeBytes buffer off bs = .ok stored) :
    stored.length = buffer.length
    ∧ ∀ k : Nat, ((k : Int) < off ∨ off + bs.length ≤ (k : Int)) → stored[k]? = buffer[k]? := by
  unfold writeBytes at h
  split at h
  · rename_i hc
    cases h
    have h1 : off.toNat ≤ buffer.length := by omega
    refine ⟨?_, ?_⟩
    · simp only [List.length_append, List.length_take, List.length_drop]
      omega
    · intro k hk
      rcases hk with hk | hk
      · have hk1 : k < off.toNat := by omega
        rw [List.append_assoc, List.getElem?_append_left (by simp; omega),
          List.getElem?_take_of_lt hk1]
      · have hk1 : off.toNat + bs.length ≤ k := by omega
        rw [List.getElem?_append_right (by simp; omega)]
        simp only [List.length_append, List.length_take, List.getElem?_drop]
        congr 1
        omega
  · cases h

/-- C16: for every 24-bit integer `v` and every frame `i` that the buffer holds, the store
of `floatToSample` (the bytes `v & 0xFF`, `(v >> 8) & 0xFF`, `(v >> 16) & 0xFF` at offset
`3 i`) followed by the read of `sampleToFloat` (`b0 | b1 << 8 | b2 << 16`, sign-extended
from bit 23) gives `v` again; the buffer keeps its length and every byte outside
`3 i .. 3 i + 2` keeps its value. -/
theorem int24_store_load (v : Int) (i : Int) (buffer : Region)
    (hlo : -8388608 ≤ v) (hhi : v ≤ 8388607) (h0 : 0 ≤ i)
    (hfit : (i + 1) * 3 ≤ buffer.length) :
    ∃ stored, writeBytes buffer (i * 3) (store24 v) = .ok stored
      ∧ (readBytes stored (i * 3) 3).map
          (fun bs => load24 (bs.getD 0 0) (bs.getD 1 0) (bs.getD 2 0)) = .ok v
      ∧ stored.length = buffer.length
      ∧ (∀ k : Nat, ((k : Int) < i * 3 ∨ i * 3 + 3 ≤ (k : Int)) → stored[k]? = buffer[k]?)
      ∧ (∀ value : Fl, floatToSample value buffer i ASIOSTInt24LSB
          = (floatToInt 32 (fmul (stdMax (litF (-1)) (stdMin (litF 1) value)) (litF 8388607))).bind
              (fun val => writeBytes buffer (i * 3) (store24 val)))
      ∧ sampleToFloat stored i ASIOSTInt24LSB
          = .ok (fdivPow2 (intToFloat v) 23) := by
  have hlen : (store24 v).length = 3 := rfl
  obtain ⟨stored, hst⟩ := writeBytes_ok buffer (i * 3) (store24 v) (by omega)
    (by rw [hlen]; push_cast; linarith)
  have hrd : readBytes stored (i * 3) 3 = .ok (store24 v) := by
    have := readBytes_writeBytes _ _ _ _ hst
    rwa [hlen] at this
  have hload : load24 ((store24 v).getD 0 0) ((store24 v).getD 1 0) ((store24 v).getD 2 0) = v :=
    load24_store24 v hlo hhi
  obtain ⟨hl, hframe⟩ := writeBytes_frame _ _ _ _ hst
  refine ⟨stored, hst, ?_, hl, ?_, fun _ => rfl, ?_⟩
  · rw [hrd]
    show Except.ok (load24 _ _ _) = Except.ok v
    rw [hload]
  · intro k hk
    apply hframe
    rw [hlen]
    exact hk
  · have : sampleToFloat stored i ASIOSTInt24LSB
        = (readBytes stored (i * 3) 3).map
            (fun bs => fdivPow2 (intToFloat (load24 (bs.getD 0 0) (bs.getD 1 0) (bs.getD 2 0))) 23) :=
      rfl
    rw [this, hrd]
    show Except.ok (fdivPow2 (intToFloat (load24 _ _ _)) 23) = _
    rw [hload]

/-- Witness of `int24_store_load`: `v = -2`, frame 1 of a six-byte buffer. -/
theorem int24_store_load_witness :
    (-8388608 : Int) ≤ -2 ∧ (-2 : Int) ≤ 8388607 ∧ (0 : Int) ≤ 1
    ∧ ((1 : Int) + 1) * 3 ≤ ([9, 9, 9, 9, 9, 9] : Region).length
    ∧ ∃ stored, writeBytes [9, 9, 9, 9, 9, 9] (1 * 3) (store24 (-2)) = .ok stored
        ∧ (readBytes stored (1 * 3) 3).map
            (fun bs => load24 (bs.getD 0 0) (bs.getD 1 0) (bs.getD 2 0)) = .ok (-2)
        ∧ stored.length = ([9, 9, 9, 9, 9, 9] : Region).length :=
  have h := int24_store_load (-2) 1 [9, 9, 9, 9, 9, 9] (by decide) (by decide) (by decide)
    (by decide)
  ⟨by decide, by decide, by decide, by decide,
    h.elim fun stored hs => ⟨stored, hs.1, hs.2.1, hs.2.2.1⟩⟩

/-! ## Outcomes of `createBuffers` and `initialize` -/

theorem createBuffers_cases (s s1 : ASIOHost) (p : Int) (r : BufReply) (b : Bool)
    (h : createBuffers s p r = .ok (b, s1)) :
    (b = false ∧ s1 = s
      ∧ ((!s.initialized || s.asioDriver.isNone) = true ∨ r.bufferSize = none))
    ∨ (b = false ∧ (!s.initialized || s.asioDriver.isNone) = false ∧ r.created = none
        ∧ ∃ mn mx pf g mix, r.bufferSize = some (mn, mx, pf, g)
          ∧ resizeVec (Fl.fin false 0 0) (chooseBufferSize p mn mx pf) s.mixBuffer = .ok mix
          ∧ s1 = { s with bufferSize := chooseBufferSize p mn mx pf, mixBuffer := mix })
    ∨ (b = true ∧ (!s.initialized || s.asioDriver.isNone) = false
        ∧ ∃ mn mx pf g mix bufs routes, r.bufferSize = some (mn, mx, pf, g)
          ∧ r.created = some bufs
          ∧ resizeVec (Fl.fin false 0 0) (chooseBufferSize p mn mx pf) s.mixBuffer = .ok mix
          ∧ detectRouting s.numInputs s.numOutputs s.inputChannelNames s.outputChannelNames
              = .ok routes
          ∧ s1 = { s with
              bufferSize := chooseBufferSize p mn mx pf
              mixBuffer := mix
              inputBuffers0 := (upTo s.numInputs).map (fun i => (bufs i).1)
              inputBuffers1 := (upTo s.numInputs).map (fun i => (bufs i).2)
              outputBuffers0 := (upTo s.numOutputs).map (fun i => (bufs (s.numInputs.toNat + i)).1)
              outputBuffers1 := (upTo s.numOutputs).map (fun i => (bufs (s.numInputs.toNat + i)).2)
              routes := routes
              buffersCreated := true }) := by
  unfold createBuffers at h
  split at h
  · rename_i hc
    cases h
    exact Or.inl ⟨rfl, rfl, Or.inl hc⟩
  · rename_i hc
    have hc' : (!s.initialized || s.asioDriver.isNone) = false := Bool.eq_false_iff.mpr hc
    split at h
    · rename_i hb
      cases h
      exact Or.inl ⟨rfl, rfl, Or.inr hb⟩
    · rename_i mn mx pf g hb
      obtain ⟨mix, hmix, h⟩ := bind_eq_ok h
      dsimp only at h hmix
      split at h
      · cases h
      · split at h
        · cases h
        · split at h
          · rename_i hcr
            cases h
            exact Or.inr (Or.inl ⟨rfl, hc', hcr, mn, mx, pf, g, mix, hb, hmix, rfl⟩)
          · rename_i bufs hcr
            obtain ⟨_, _, h⟩ := bind_eq_ok h
            obtain ⟨_, _, h⟩ := bind_eq_ok h
            obtain ⟨_, _, h⟩ := bind_eq_ok h
            obtain ⟨_, _, h⟩ := bind_eq_ok h
            obtain ⟨routes, hroutes, h⟩ := bind_eq_ok h
            cases h
            exact Or.inr (Or.inr ⟨rfl, hc', mn, mx, pf, g, mix, bufs, routes, hb, hcr, hmix,
              hroutes, rfl⟩)

/-- C12: `disposeBuffers` empties the route table, and after a successful `createBuffers`
the route table is what `detectRouting` computes from the channel counts and names of
the session (which `createBuffers` does not change); so two sessions with the same
counts and names get the same routes whatever their route tables were before. -/
theorem createBuffers_recomputes_routes (s s1 : ASIOHost) (p : Int) (r : BufReply)
    (h : createBuffers s p r = .ok (true, s1)) :
    (∀ s0 : ASIOHost, (disposeBuffers s0).routes = [])
    ∧ detectRouting s1.numInputs s1.numOutputs s1.inputChannelNames s1.outputChannelNames
        = .ok s1.routes
    ∧ s1.numInputs = s.numInputs ∧ s1.numOutputs = s.numOutputs
    ∧ s1.inputChannelNames = s.inputChannelNames
    ∧ s1.outputChannelNames = s.outputChannelNames
    ∧ ∀ (t t1 : ASIOHost) (q : Int) (rq : BufReply),
        createBuffers t q rq = .ok (true, t1) →
        t.numInputs = s.numInputs → t.numOutputs = s.numOutputs →
        t.inputChannelNames = s.inputChannelNames →
        t.outputChannelNames = s.outputChannelNames →
        t1.routes = s1.routes := by
  have key : ∀ (a a1 : ASIOHost) (q : Int) (rq : BufReply),
      createBuffers a q rq = .ok (true, a1) →
      detectRouting a.numInputs a.numOutputs a.inputChannelNames a.outputChannelNames
        = .ok a1.routes
      ∧ a1.numInputs = a.numInputs ∧ a1.numOutputs = a.numOutputs
      ∧ a1.inputChannelNames = a.inputChannelNames
      ∧ a1.outputChannelNames = a.outputChannelNames := by
    intro a a1 q rq ha
    rcases createBuffers_cases a a1 q rq true ha with ⟨hb, _⟩ | ⟨hb, _⟩ | ⟨_, _, mn, mx, pf, g, mix, bufs, routes, _, _, _, hroutes, hs⟩
    · cases hb
    · cases hb
    · subst hs
      exact ⟨hroutes, rfl, rfl, rfl, rfl⟩
  obtain ⟨k1, k2, k3, k4, k5⟩ := key s s1 p r h
  refine ⟨fun _ => rfl, ?_, k2, k3, k4, k5, ?_⟩
  · rw [k2, k3, k4, k5]
    exact k1
  · intro t t1 q rq ht e1 e2 e3 e4
    obtain ⟨j1, _⟩ := key t t1 q rq ht
    rw [e1, e2, e3, e4, k1] at j1
    exact (Except.ok.inj j1).symm

/-- Witness of `createBuffers_recomputes_routes` (scenario D): the sample session with 2
inputs and 2 outputs holds two routes; after `disposeBuffers`, a second `initialize`
reporting 1 input and 1 output, and `createBuffers`, the route table is `[(0, 0)]`. -/
theorem createBuffers_recomputes_routes_witness :
    (sampleSession 2 2 ASIOSTInt32LSB).routes = [⟨0, 0⟩, ⟨1, 1⟩]
    ∧ ∃ s s1, run (sampleSession 2 2 ASIOSTInt32LSB)
          [.disposeBuffers, sampleInit 1 1 ASIOSTInt32LSB] = .ok s
        ∧ createBuffers s 0 sampleAccept = .ok (true, s1)
        ∧ s1.routes = [⟨0, 0⟩]
        ∧ detectRouting s1.numInputs s1.numOutputs s1.inputChannelNames s1.outputChannelNames
            = .ok s1.routes := by
  refine ⟨rfl, ?_⟩
  have h : ∃ s s1, run (sampleSession 2 2 ASIOSTInt32LSB)
        [.disposeBuffers, sampleInit 1 1 ASIOSTInt32LSB] = .ok s
      ∧ createBuffers s 0 sampleAccept = .ok (true, s1) ∧ s1.routes = [⟨0, 0⟩] :=
    ⟨_, _, rfl, rfl, rfl⟩
  obtain ⟨s, s1, h1, h2, h3⟩ := h
  exact ⟨s, s1, h1, h2, h3, (createBuffers_recomputes_routes s s1 0 sampleAccept h2).2.1⟩

/-! ## Lifecycle flags and channel metadata -/

theorem initializeDriver_cases (s s1 : ASIOHost) (r : InitReply) (b : Bool)
    (h : initializeDriver s r = .ok (b, s1)) :
    (b = false ∧ s1 = s)
    ∨ (b = true ∧ s.asioDriver.isNone = false
        ∧ ∃ inputs outputs inNames outNames inTypes outTypes,
          r.channels = some (inputs, outputs)
          ∧ resizeVec [] inputs s.inputChannelNames = .ok inNames
          ∧ resizeVec [] outputs s.outputChannelNames = .ok outNames
          ∧ resizeVec ASIOSTInt16MSB inputs s.inputSampleTypes = .ok inTypes
          ∧ resizeVec ASIOSTInt16MSB outputs s.outputSampleTypes = .ok outTypes
          ∧ s1 = { s with
              numInputs := inputs
              numOutputs := outputs
              sampleRate := r.sampleRate.getD s.sampleRate
              inputChannelNames :=
                (fillChannels (r.channelInfo true) "Input " (upTo inputs) (inNames, inTypes)).1
              inputSampleTypes :=
                (fillChannels (r.channelInfo true) "Input " (upTo inputs) (inNames, inTypes)).2
              outputChannelNames :=
                (fillChannels (r.channelInfo false) "Output " (upTo outputs)
                  (outNames, outTypes)).1
              outputSampleTypes :=
                (fillChannels (r.channelInfo false) "Output " (upTo outputs)
                  (outNames, outTypes)).2
              initialized := true }) := by
  unfold initializeDriver at h
  split at h
  · cases h
    exact Or.inl ⟨rfl, rfl⟩
  · rename_i hd
    split at h
    · cases h
      exact Or.inl ⟨rfl, rfl⟩
    · split at h
      · cases h
        exact Or.inl ⟨rfl, rfl⟩
      · rename_i inputs outputs hch
        obtain ⟨inNames, h1, h⟩ := bind_eq_ok h
        obtain ⟨outNames, h2, h⟩ := bind_eq_ok h
        obtain ⟨inTypes, h3, h⟩ := bind_eq_ok h
        obtain ⟨outTypes, h4, h⟩ := bind_eq_ok h
        cases h
        exact Or.inr ⟨rfl, Bool.eq_false_iff.mpr hd, inputs, outputs, inNames, outNames, inTypes,
          outTypes, hch, h1, h2, h3, h4, rfl⟩

theorem fillChannels_length (info : Nat → Option (Name × ASIOSampleType)) (stem : String)
    (idxs : List Nat) (names : List Name) (types : List ASIOSampleType) :
    (fillChannels info stem idxs (names, types)).1.length = names.length
    ∧ (fillChannels info stem idxs (names, types)).2.length = types.length := by
  induction idxs generalizing names types with
  | nil => exact ⟨rfl, rfl⟩
  | cons i rest ih =>
    unfold fillChannels
    split
    · rename_i nm ty _
      have := ih (names.set i nm) (types.set i ty)
      simpa using this
    · have := ih (names.set i (stem ++ toString (i + 1)).toList) (types.set i ASIOSTInt32LSB)
      simpa using this

theorem resizeVec_ok {α : Type} {dflt : α} {n : Int} {v w : List α}
    (h : resizeVec dflt n v = .ok w) :
    0 ≤ n ∧ w = v.take n.toNat ++ List.replicate (n.toNat - v.length) dflt := by
  unfold resizeVec at h
  split at h
  · cases h
  · simp only [Except.ok.injEq] at h
    exact ⟨by omega, h.symm⟩

theorem resizeVec_length {α : Type} {dflt : α} {n : Int} {v w : List α}
    (h : resizeVec dflt n v = .ok w) : (w.length : Int) = n := by
  obtain ⟨h0, hw⟩ := resizeVec_ok h
  rw [hw]
  simp only [List.length_append, List.length_take, List.length_replicate]
  omega

theorem initializeDriver_metadata (s s1 : ASIOHost) (r : InitReply)
    (h : initializeDriver s r = .ok (true, s1)) : MetadataMatches s1 := by
  rcases initializeDriver_cases s s1 r true h with ⟨hb, _⟩ | ⟨_, _, inputs, outputs, inNames, outNames, inTypes, outTypes, _, h1, h2, h3, h4, hs⟩
  · cases hb
  · subst hs
    have a := fillChannels_length (r.channelInfo true) "Input " (upTo inputs) inNames inTypes
    have b := fillChannels_length (r.channelInfo false) "Output " (upTo outputs) outNames outTypes
    refine ⟨?_, ?_, ?_, ?_⟩
    · show ((fillChannels _ _ _ _).1.length : Int) = inputs
      rw [a.1]
      exact resizeVec_length h1
    · show ((fillChannels _ _ _ _).2.length : Int) = inputs
      rw [a.2]
      exact resizeVec_length h3
    · show ((fillChannels _ _ _ _).1.length : Int) = outputs
      rw [b.1]
      exact resizeVec_length h2
    · show ((fillChannels _ _ _ _).2.length : Int) = outputs
      rw [b.2]
      exact resizeVec_length h4

theorem loadDriver_initialized (s : ASIOHost) (name : Name) (drivers : List DriverInfo)
    (instantiate : Nat → Option Nat) :
    (loadDriver s name drivers instantiate).2.initialized = false := by
  unfold loadDriver
  split
  · rfl
  · split <;> rfl

theorem disposeBuffers_fields (s : ASIOHost) :
    (disposeBuffers s).initialized = s.initialized
    ∧ (disposeBuffers s).asioDriver = s.asioDriver
    ∧ (disposeBuffers s).running = s.running
    ∧ (disposeBuffers s).numInputs = s.numInputs
    ∧ (disposeBuffers s).numOutputs = s.numOutputs
    ∧ (disposeBuffers s).inputChannelNames = s.inputChannelNames
    ∧ (disposeBuffers s).outputChannelNames = s.outputChannelNames
    ∧ (disposeBuffers s).inputSampleTypes = s.inputSampleTypes
    ∧ (disposeBuffers s).outputSampleTypes = s.outputSampleTypes := by
  unfold disposeBuffers
  split <;> exact ⟨rfl, rfl, rfl, rfl, rfl, rfl, rfl, rfl, rfl⟩

theorem reachable_initialized (s : ASIOHost) (h : Reachable s) (hi : s.initialized = true) :
    s.asioDriver.isSome = true ∧ MetadataMatches s := by
  induction h with
  | fresh => cases hi
  | next op _ hstep ih =>
    cases op with
    | loadDriver name drivers instantiate =>
      cases hstep
      rw [loadDriver_initialized] at hi
      cases hi
    | initializeDriver r =>
      obtain ⟨b, h1⟩ := map_snd_eq_ok hstep
      rcases initializeDriver_cases _ _ r b h1 with ⟨_, hs⟩ | ⟨hb, hd, _, _, _, _, _, _, _, _, _, _, _, hs⟩
      · subst hs
        exact ih hi
      · subst hb
        refine ⟨?_, initializeDriver_metadata _ _ r h1⟩
        subst hs
        show Option.isSome _ = true
        cases hdr : ASIOHost.asioDriver _ with
        | none => rw [hdr] at hd; cases hd
        | some _ => rfl
    | createBuffers p r =>
      obtain ⟨b, h1⟩ := map_snd_eq_ok hstep
      rcases createBuffers_cases _ _ p r b h1 with ⟨_, hs, _⟩ | ⟨_, _, _, _, _, _, _, _, _, _, hs⟩ | ⟨_, _, _, _, _, _, _, _, _, _, _, _, _, hs⟩
      · subst hs
        exact ih hi
      · subst hs
        exact ih hi
      · subst hs
        exact ih hi
    | start startOk =>
      cases hstep
      unfold start at hi ⊢
      split
      · rename_i hc
        rw [if_pos hc] at hi
        exact ih hi
      · rename_i hc
        rw [if_neg hc] at hi
        split
        · rename_i hc2
          rw [if_pos hc2] at hi
          exact ih hi
        · rename_i hc2
          rw [if_neg hc2] at hi
          exact ih hi
    | stop =>
      cases hstep
      unfold stop at hi ⊢
      split
      · rename_i hc
        rw [if_pos hc] at hi
        exact ih hi
      · rename_i hc
        rw [if_neg hc] at hi
        exact ih hi
    | disposeBuffers =>
      cases hstep
      obtain ⟨e1, e2, _, e4, e5, e6, e7, e8, e9⟩ := disposeBuffers_fields ‹ASIOHost›
      rw [e1] at hi
      obtain ⟨a, m1, m2, m3, m4⟩ := ih hi
      refine ⟨by rw [e2]; exact a, ?_, ?_, ?_, ?_⟩
      · show ((disposeBuffers _).inputChannelNames.length : Int) = (disposeBuffers _).numInputs
        rw [e6, e4]
        exact m1
      · show ((disposeBuffers _).inputSampleTypes.length : Int) = (disposeBuffers _).numInputs
        rw [e8, e4]
        exact m2
      · show ((disposeBuffers _).outputChannelNames.length : Int) = (disposeBuffers _).numOutputs
        rw [e7, e5]
        exact m3
      · show ((disposeBuffers _).outputSampleTypes.length : Int) = (disposeBuffers _).numOutputs
        rw [e9, e5]
        exact m4
    | unloadDriver =>
      cases hstep
      cases hi

/-- C17 (failing input): in every reachable state `initialized` implies a loaded driver,
but the other two implications fail: after load, initialize, create-buffers, start and
then `disposeBuffers` the session is still running (`isRunning()` is true) with
`buffersCreated` false, and after `unloadDriver` in place of `disposeBuffers` it is
running with buffers created, not initialized and without a driver. -/
theorem flags_not_nested :
    (∀ s : ASIOHost, Reachable s → s.initialized = true → s.asioDriver.isSome = true)
    ∧ ∃ s1 s2 : ASIOHost,
        run {} [sampleLoad, sampleInit 2 2 ASIOSTInt32LSB, sampleCreate, .start true,
            .disposeBuffers] = .ok s1
        ∧ run {} [sampleLoad, sampleInit 2 2 ASIOSTInt32LSB, sampleCreate, .start true,
            .unloadDriver] = .ok s2
        ∧ Reachable s1 ∧ Reachable s2
        ∧ s1.running = true ∧ isRunning s1 = true ∧ s1.buffersCreated = false
        ∧ s2.running = true ∧ isRunning s2 = true ∧ s2.buffersCreated = true
        ∧ s2.initialized = false ∧ s2.asioDriver = none
        ∧ ¬ FlagsNested s1 ∧ ¬ FlagsNested s2 := by
  refine ⟨fun s hs hi => (reachable_initialized s hs hi).1, ?_⟩
  have h1 : ∃ s1 : ASIOHost,
      run {} [sampleLoad, sampleInit 2 2 ASIOSTInt32LSB, sampleCreate, .start true,
          .disposeBuffers] = .ok s1
      ∧ s1.running = true ∧ isRunning s1 = true ∧ s1.buffersCreated = false :=
    ⟨_, rfl, rfl, rfl, rfl⟩
  have h2 : ∃ s2 : ASIOHost,
      run {} [sampleLoad, sampleInit 2 2 ASIOSTInt32LSB, sampleCreate, .start true,
          .unloadDriver] = .ok s2
      ∧ s2.running = true ∧ isRunning s2 = true ∧ s2.buffersCreated = true
      ∧ s2.initialized = false ∧ s2.asioDriver = none :=
    ⟨_, rfl, rfl, rfl, rfl, rfl, rfl⟩
  obtain ⟨s1, r1, a1, b1, c1⟩ := h1
  obtain ⟨s2, r2, a2, b2, c2, d2, e2⟩ := h2
  refine ⟨s1, s2, r1, r2, reachable_run _ _ _ Reachable.fresh r1,
    reachable_run _ _ _ Reachable.fresh r2, a1, b1, c1, a2, b2, c2, d2, e2, ?_, ?_⟩
  · intro hn
    have := hn.1 a1
    rw [c1] at this
    cases this
  · intro hn
    have := hn.2.1 c2
    rw [d2] at this
    cases this

/-- C18 (failing input): in every reachable state that is initialized the four metadata
vectors have the lengths `numInputs` and `numOutputs`; but `unloadDriver` empties the
vectors and keeps the counts, so after load, initialize (2 inputs, 2 outputs) and
`unloadDriver` the counts are 2 with empty vectors and `getRoutingInfo` subscripts
`inputChannelNames[0]` out of range; likewise `bufferSwitch` on `outputSampleTypes[0]`
when the session was running. -/
theorem metadata_stale_after_unload :
    (∀ s : ASIOHost, Reachable s → s.initialized = true → MetadataMatches s)
    ∧ ∃ s1 s2 : ASIOHost,
        run {} [sampleLoad, sampleInit 2 2 ASIOSTInt32LSB, .unloadDriver] = .ok s1
        ∧ run {} [sampleLoad, sampleInit 2 2 ASIOSTInt32LSB, sampleCreate, .start true,
            .unloadDriver] = .ok s2
        ∧ Reachable s1 ∧ Reachable s2
        ∧ s1.numInputs = 2 ∧ s1.numOutputs = 2
        ∧ s1.inputChannelNames = [] ∧ s1.inputSampleTypes = []
        ∧ s1.outputChannelNames = [] ∧ s1.outputSampleTypes = []
        ∧ ¬ MetadataMatches s1
        ∧ getRoutingInfo s1 = .error Fault.outOfRange
        ∧ s2.numOutputs = 2 ∧ s2.outputSampleTypes = []
        ∧ ∀ mem : Mem, bufferSwitch s2 mem 0 = .error Fault.outOfRange := by
  refine ⟨fun s hs hi => (reachable_initialized s hs hi).2, ?_⟩
  have h1 : ∃ s1 : ASIOHost,
      run {} [sampleLoad, sampleInit 2 2 ASIOSTInt32LSB, .unloadDriver] = .ok s1
      ∧ s1.numInputs = 2 ∧ s1.numOutputs = 2
      ∧ s1.inputChannelNames = [] ∧ s1.inputSampleTypes = []
      ∧ s1.outputChannelNames = [] ∧ s1.outputSampleTypes = []
      ∧ getRoutingInfo s1 = .error Fault.outOfRange :=
    ⟨_, rfl, rfl, rfl, rfl, rfl, rfl, rfl, rfl⟩
  have h2 : ∃ s2 : ASIOHost,
      run {} [sampleLoad, sampleInit 2 2 ASIOSTInt32LSB, sampleCreate, .start true,
          .unloadDriver] = .ok s2
      ∧ s2.numOutputs = 2 ∧ s2.outputSampleTypes = []
      ∧ ∀ mem : Mem, bufferSwitch s2 mem 0 = .error Fault.outOfRange :=
    ⟨_, rfl, rfl, rfl, fun _ => rfl⟩
  obtain ⟨s1, r1, a1, b1, c1, d1, e1, f1, g1⟩ := h1
  obtain ⟨s2, r2, a2, b2, c2⟩ := h2
  refine ⟨s1, s2, r1, r2, reachable_run _ _ _ Reachable.fresh r1,
    reachable_run _ _ _ Reachable.fresh r2, a1, b1, c1, d1, e1, f1, ?_, g1, a2, b2, c2⟩
  intro hm
  have := hm.1
  rw [c1, a1] at this
  exact absurd this (by decide)

/-! ## Bytes per frame: codec against `getBytesPerSample` -/

theorem leBytes_length (w : Nat) (v : Int) : (leBytes w v).length = w := by
  simp [leBytes]

theorem encodeSample_length (v : Fl) (t : ASIOSampleType) (bs : List Nat)
    (h : encodeSample v t = .ok bs) : bs.length = sampleWidth t := by
  unfold encodeSample at h
  unfold sampleWidth
  simp only at h
  split_ifs at h ⊢
  all_goals
    first
    | (cases h; exact leBytes_length _ _)
    | (cases hx : floatToInt 32 (fmul (stdMax (litF (-1)) (stdMin (litF 1) v)) (litF 2147483647)) with
        | error e => rw [hx] at h; cases h
        | ok x => rw [hx] at h; cases h; exact leBytes_length _ _)
    | (cases hx : floatToInt 16 (fmul (stdMax (litF (-1)) (stdMin (litF 1) v)) (litF 32767)) with
        | error e => rw [hx] at h; cases h
        | ok x => rw [hx] at h; cases h; exact leBytes_length _ _)
    | (cases hx : floatToInt 32 (fmul (stdMax (litF (-1)) (stdMin (litF 1) v)) (litF 8388607)) with
        | error e => rw [hx] at h; cases h
        | ok x => rw [hx] at h; cases h; rfl)

theorem sampleWidth_eq_iff (t : Int) :
    ((sampleWidth t : Nat) : Int) = getBytesPerSample t
      ↔ (t ≠ ASIOSTInt16MSB ∧ t ≠ ASIOSTInt24MSB ∧ t ≠ ASIOSTFloat64MSB) := by
  unfold sampleWidth getBytesPerSample
  simp only [ASIOSTInt16MSB, ASIOSTInt24MSB, ASIOSTInt32MSB, ASIOSTFloat32MSB, ASIOSTFloat64MSB,
    ASIOSTInt32MSB16, ASIOSTInt32MSB18, ASIOSTInt32MSB20, ASIOSTInt32MSB24, ASIOSTInt16LSB,
    ASIOSTInt24LSB, ASIOSTInt32LSB, ASIOSTFloat32LSB, ASIOSTFloat64LSB, ASIOSTInt32LSB16,
    ASIOSTInt32LSB18, ASIOSTInt32LSB20, ASIOSTInt32LSB24]
  split_ifs <;>
    first
    | (simp_all; done)
    | (rename_i h
       rcases h with rfl | rfl | rfl | rfl | rfl | rfl | rfl | rfl | rfl | rfl | rfl | rfl <;>
         simp_all)

/-- C19 (failing input): for every format `t` the codec reads and writes `sampleWidth t`
bytes per frame at byte offset `i * sampleWidth t`, and this equals `getBytesPerSample t`
exactly when `t` is none of `ASIOSTInt16MSB`, `ASIOSTInt24MSB`, `ASIOSTFloat64MSB`: for
these the codec falls into its 4-byte default while `getBytesPerSample` gives 2, 3 and 8.
On a buffer of two 16-bit MSB frames (4 bytes) the codec accesses bytes 4..7 for frame 1,
and `bufferSwitch` on a running session with one 16-bit MSB input routed to one 16-bit
MSB output, each buffer a full period of 8 frames (16 bytes), leaves the buffers. -/
theorem codec_width_mismatch (t : ASIOSampleType) :
    (∀ (v : Fl) (buffer : Region) (i : Int),
        floatToSample v buffer i t
          = (encodeSample v t).bind (fun bs => writeBytes buffer (i * sampleWidth t) bs))
    ∧ (∀ (v : Fl) (bs : List Nat), encodeSample v t = .ok bs → bs.length = sampleWidth t)
    ∧ (∀ (buffer : Region) (i : Int),
        sampleToFloat buffer i t
          = (readBytes buffer (i * sampleWidth t) (sampleWidth t)).map
              (fun bs => decodeSample bs t))
    ∧ (((sampleWidth t : Nat) : Int) = getBytesPerSample t
        ↔ (t ≠ ASIOSTInt16MSB ∧ t ≠ ASIOSTInt24MSB ∧ t ≠ ASIOSTFloat64MSB))
    ∧ sampleWidth ASIOSTInt16MSB = 4 ∧ getBytesPerSample ASIOSTInt16MSB = 2
    ∧ sampleWidth ASIOSTInt24MSB = 4 ∧ getBytesPerSample ASIOSTInt24MSB = 3
    ∧ sampleWidth ASIOSTFloat64MSB = 4 ∧ getBytesPerSample ASIOSTFloat64MSB = 8
    ∧ sampleToFloat [0, 0, 0, 0] 1 ASIOSTInt16MSB = .error Fault.badPointer
    ∧ floatToSample (litF 0) [0, 0, 0, 0] 1 ASIOSTInt16MSB = .error Fault.badPointer
    ∧ (start (sampleSession 1 1 ASIOSTInt16MSB) true).2.routes = [⟨0, 0⟩]
    ∧ (start (sampleSession 1 1 ASIOSTInt16MSB) true).2.bufferSize = 8
    ∧ bufferSwitch (start (sampleSession 1 1 ASIOSTInt16MSB) true).2
        (List.replicate 4 (List.replicate 16 0)) 0 = .error Fault.badPointer :=
  ⟨fun v buffer i => floatToSample_eq_encode v buffer i t,
    fun v bs h => encodeSample_length v t bs h,
    fun buffer i => sampleToFloat_eq_decode buffer i t,
    sampleWidth_eq_iff t,
    rfl, rfl, rfl, rfl, rfl, rfl, by decide, by decide, rfl, rfl, by decide⟩

/-! ## Failure of `createBuffers` -/

theorem step_routesInBounds (s s1 : ASIOHost) (op : Op) (hinv : RoutesInBounds s)
    (hstep : step s op = .ok s1) (hop : ∀ r, op ≠ Op.initializeDriver r) :
    RoutesInBounds s1 := by
  have empty_ok : ∀ t : ASIOHost, t.routes = [] → RoutesInBounds t := by
    intro t ht r hr
    rw [ht] at hr
    cases hr
  cases op with
  | loadDriver name drivers instantiate =>
    cases hstep
    apply empty_ok
    unfold loadDriver
    split
    · rfl
    · split <;> rfl
  | initializeDriver r => exact absurd rfl (hop r)
  | createBuffers p r =>
    obtain ⟨b, h1⟩ := map_snd_eq_ok hstep
    exact createBuffers_routesInBounds _ _ _ _ _ hinv h1
  | start startOk =>
    cases hstep
    unfold start
    split
    · exact hinv
    · split <;> exact hinv
  | stop =>
    cases hstep
    unfold stop
    split <;> exact hinv
  | disposeBuffers =>
    cases hstep
    exact empty_ok _ rfl
  | unloadDriver =>
    cases hstep
    exact empty_ok _ rfl

/-- C3 (failing input): `createBuffers`, when it succeeds, leaves every route within the
channel counts, and every operation other than `initialize` keeps the routes within the
counts; but `initialize` replaces the counts and keeps the route table. After load,
initialize with 2 inputs and 2 outputs, create buffers, and a second initialize with
the driver reporting 1 input and 1 output, the reachable state has counts 1 and 1 and
still holds the route `(1, 1)`, and `getRoutingInfo` subscripts `inputChannelNames[1]`
out of range. -/
theorem routes_stale_after_reinitialize :
    (∀ (s s1 : ASIOHost) (p : Int) (r : BufReply),
        createBuffers s p r = .ok (true, s1) → RoutesInBounds s1)
    ∧ (∀ (s s1 : ASIOHost) (op : Op), RoutesInBounds s → step s op = .ok s1 →
        (∀ r, op ≠ Op.initializeDriver r) → RoutesInBounds s1)
    ∧ ∃ s : ASIOHost, Reachable s
      ∧ run {} [sampleLoad, sampleInit 2 2 ASIOSTInt32LSB, sampleCreate,
          sampleInit 1 1 ASIOSTInt32LSB] = .ok s
      ∧ s.numInputs = 1 ∧ s.numOutputs = 1 ∧ s.routes = [⟨0, 0⟩, ⟨1, 1⟩]
      ∧ s.inputChannelNames.length = 1 ∧ s.outputChannelNames.length = 1
      ∧ ¬ (∀ r ∈ s.routes, 0 ≤ r.inputChannel ∧ r.inputChannel < s.numInputs
            ∧ 0 ≤ r.outputChannel ∧ r.outputChannel < s.numOutputs)
      ∧ getRoutingInfo s = .error Fault.outOfRange := by
  refine ⟨?_, fun s s1 op hinv hstep hop => step_routesInBounds s s1 op hinv hstep hop, ?_⟩
  · intro s s1 p r h
    rcases createBuffers_cases s s1 p r true h with
      ⟨hb, _⟩ | ⟨hb, _⟩ | ⟨_, _, mn, mx, pf, g, mix, bufs, routes, _, _, _, hroutes, hs⟩
    · cases hb
    · cases hb
    · subst hs
      exact detectRouting_bounds _ _ _ _ _ hroutes
  · have hrun : ∃ s, run {} [sampleLoad, sampleInit 2 2 ASIOSTInt32LSB, sampleCreate,
        sampleInit 1 1 ASIOSTInt32LSB] = .ok s
        ∧ s.numInputs = 1 ∧ s.numOutputs = 1 ∧ s.routes = [⟨0, 0⟩, ⟨1, 1⟩]
        ∧ s.inputChannelNames.length = 1 ∧ s.outputChannelNames.length = 1
        ∧ getRoutingInfo s = .error Fault.outOfRange :=
      ⟨_, rfl, rfl, rfl, rfl, rfl, rfl, rfl⟩
    obtain ⟨s, h, h1, h2, h3, h4, h5, h6⟩ := hrun
    refine ⟨s, reachable_run _ _ _ Reachable.fresh h, h, h1, h2, h3, h4, h5, ?_, h6⟩
    intro hall
    have := hall ⟨1, 1⟩ (by rw [h3]; simp)
    rw [h1] at this
    exact absurd this.2.1 (by decide)

/-! ## The callback on a running session without routes -/

/-- C9 (failing input): on the started sample session with no input and two 16-bit
outputs (empty route table, period of 8 frames) `bufferSwitch` zero-fills the 16 bytes of
the indexed half of both outputs, leaves the other half as it was and calls
`outputReady` once. But a session stays running with an empty route table after
`disposeBuffers` or `unloadDriver`: after start and `disposeBuffers` the callback
subscripts the emptied `outputBuffers[index]`, after start and `unloadDriver` it
subscripts the emptied `outputSampleTypes`, and with no output channel at all it returns
after `unloadDriver` without calling `outputReady`. -/
theorem bufferSwitch_empty_routes_running :
    sampleRunning.running = true ∧ sampleRunning.routes = []
    ∧ bufferSwitch sampleRunning sampleMem 0
        = .ok ([List.replicate 16 0, List.replicate 16 7, List.replicate 16 0,
                List.replicate 16 7], [DriverCall.outputReady])
    ∧ bufferSwitch sampleRunning sampleMem 1
        = .ok ([List.replicate 16 7, List.replicate 16 0, List.replicate 16 7,
                List.replicate 16 0], [DriverCall.outputReady])
    ∧ ∃ s1 s2 s3 : ASIOHost,
        run {} [sampleLoad, sampleInit 0 2 ASIOSTInt16LSB, sampleCreate, .start true,
            .disposeBuffers] = .ok s1
        ∧ run {} [sampleLoad, sampleInit 0 2 ASIOSTInt16LSB, sampleCreate, .start true,
            .unloadDriver] = .ok s2
        ∧ run {} [sampleLoad, sampleInit 0 0 ASIOSTInt16LSB, sampleCreate, .start true,
            .unloadDriver] = .ok s3
        ∧ Reachable s1 ∧ Reachable s2 ∧ Reachable s3
        ∧ s1.running = true ∧ s1.routes = []
        ∧ s2.running = true ∧ s2.routes = []
        ∧ s3.running = true ∧ s3.routes = []
        ∧ (∀ mem : Mem, bufferSwitch s1 mem 0 = .error Fault.outOfRange)
        ∧ (∀ mem : Mem, bufferSwitch s1 mem 1 = .error Fault.outOfRange)
        ∧ (∀ mem : Mem, bufferSwitch s2 mem 0 = .error Fault.outOfRange)
        ∧ (∀ mem : Mem, bufferSwitch s3 mem 0 = .ok (mem, [])) := by
  refine ⟨rfl, rfl, by decide, by decide, ?_⟩
  have h1 : ∃ s1 : ASIOHost,
      run {} [sampleLoad, sampleInit 0 2 ASIOSTInt16LSB, sampleCreate, .start true,
          .disposeBuffers] = .ok s1
      ∧ s1.running = true ∧ s1.routes = []
      ∧ (∀ mem : Mem, bufferSwitch s1 mem 0 = .error Fault.outOfRange)
      ∧ (∀ mem : Mem, bufferSwitch s1 mem 1 = .error Fault.outOfRange) :=
    ⟨_, rfl, rfl, rfl, fun _ => rfl, fun _ => rfl⟩
  have h2 : ∃ s2 : ASIOHost,
      run {} [sampleLoad, sampleInit 0 2 ASIOSTInt16LSB, sampleCreate, .start true,
          .unloadDriver] = .ok s2
      ∧ s2.running = true ∧ s2.routes = []
      ∧ (∀ mem : Mem, bufferSwitch s2 mem 0 = .error Fault.outOfRange) :=
    ⟨_, rfl, rfl, rfl, fun _ => rfl⟩
  have h3 : ∃ s3 : ASIOHost,
      run {} [sampleLoad, sampleInit 0 0 ASIOSTInt16LSB, sampleCreate, .start true,
          .unloadDriver] = .ok s3
      ∧ s3.running = true ∧ s3.routes = []
      ∧ (∀ mem : Mem, bufferSwitch s3 mem 0 = .ok (mem, [])) :=
    ⟨_, rfl, rfl, rfl, fun _ => rfl⟩
  obtain ⟨s1, r1, a1, b1, c1, d1⟩ := h1
  obtain ⟨s2, r2, a2, b2, c2⟩ := h2
  obtain ⟨s3, r3, a3, b3, c3⟩ := h3
  exact ⟨s1, s2, s3, r1, r2, r3, reachable_run _ _ _ Reachable.fresh r1,
    reachable_run _ _ _ Reachable.fresh r2, reachable_run _ _ _ Reachable.fresh r3,
    a1, b1, a2, b2, a3, b3, c1, d1, c2, c3⟩

end AsioHost
